import Mathlib

/-!
Verification of the install orchestrator in `pkg/manifest/installer.go`
(`vmware-allspark/operator`).  Go functions are shallowly embedded as Lean
definitions; the cluster-facing executors (kubectl, the k8s API client, the
yaml/object parsers of the external `object` package, and the `name` package
constants) are modelled as oracle parameters or, where the spec fixes their
behaviour, as definitions marked "Modelled from the spec".
-/

set_option maxHeartbeats 1000000

namespace OperatorManifest

/-- Go `error` values: the model only needs to carry and compare them. -/
abbrev GoErr := String

/-- Modelled from the spec: `ComponentName` is "an opaque identifier for an
installable unit (e.g. `Base`, `Pilot`)"; the concrete string values live in
the external `name` package, which is not under `src/`. -/
abbrev ComponentName := String

/-! ## Object ordering (`defaultObjectOrder`, installer.go lines 413-447) -/

/-- Direct translation of `defaultObjectOrder`.  The Go closure computes
`gk := o.Group + "/" + o.Kind` and switches on the concatenated string. -/
def defaultObjectOrder (group kind : String) : Int :=
  let gk := group ++ "/" ++ kind
  if gk = "apiextensions.k8s.io/CustomResourceDefinition" then -1000
  else if gk = "/ServiceAccount" ∨ gk = "rbac.authorization.k8s.io/ClusterRole" then 1
  else if gk = "rbac.authorization.k8s.io/ClusterRoleBinding" then 2
  else if gk = "/ConfigMap" ∨ gk = "/Secrets" then 100
  else if gk = "extensions/Deployment" ∨ gk = "app/Deployment" then 1000
  else if gk = "autoscaling/HorizontalPodAutoscaler" then 1001
  else if gk = "/Service" then 10000
  else 1000

/-! ## Service readiness (`servicesReady`, installer.go lines 712-728) -/

inductive ServiceType where
  | clusterIPT
  | nodePort
  | loadBalancer
  | externalName
deriving DecidableEq, Repr

/-- `v1.ClusterIPNone`. -/
def clusterIPNone : String := "None"

/-- The fields of `v1.Service` read by `servicesReady`:
`Spec.Type`, `Spec.ClusterIP`, `Status.LoadBalancer.Ingress` (a nilable
slice, hence `Option`), and namespace/name for the not-ready message. -/
structure ServiceModel where
  name : String
  ns : String
  typ : ServiceType
  clusterIP : String
  loadBalancerIngress : Option (List String)
deriving DecidableEq, Repr

/-- The `notReady` accumulation loop of `servicesReady`, clause for clause:
ExternalName short-circuits to ready; then
`s.Spec.ClusterIP != v1.ClusterIPNone && s.Spec.ClusterIP == ""`;
then `s.Spec.Type == LoadBalancer && s.Status.LoadBalancer.Ingress == nil`. -/
def servicesNotReady : List ServiceModel → List String
  | [] => []
  | s :: rest =>
    if s.typ = ServiceType.externalName then servicesNotReady rest
    else if s.clusterIP ≠ clusterIPNone ∧ s.clusterIP = "" then
      ("Service/" ++ s.ns ++ "/" ++ s.name) :: servicesNotReady rest
    else if s.typ = ServiceType.loadBalancer ∧ s.loadBalancerIngress = none then
      ("Service/" ++ s.ns ++ "/" ++ s.name) :: servicesNotReady rest
    else servicesNotReady rest

/-- `servicesReady` returns `(len(notReady) == 0, notReady)`. -/
def servicesReady (svcs : List ServiceModel) : Bool × List String :=
  ((servicesNotReady svcs).isEmpty, servicesNotReady svcs)

/-- The readiness predicate exactly as claim C5 words it: an ExternalName
service is always ready; a service is not ready if it is a ClusterIP-type
service whose cluster IP is not yet assigned, or a LoadBalancer-type service
with no ingress endpoint yet assigned; any other service is ready. -/
def specServiceReady (s : ServiceModel) : Bool :=
  if s.typ = ServiceType.externalName then true
  else if s.typ = ServiceType.clusterIPT ∧ s.clusterIP = "" then false
  else if s.typ = ServiceType.loadBalancer ∧ s.loadBalancerIngress = none then false
  else true

/-! ## Deployment readiness (`deploymentsReady`, installer.go lines 702-710) -/

/-- The one field of the new ReplicaSet's status that `deploymentsReady`
reads (`Status.ReadyReplicas`, an int32). -/
structure ReplicaSetModel where
  readyReplicas : Int
deriving DecidableEq, Repr

/-- The fields of `appsv1.Deployment` read by `deploymentsReady`:
`Spec.Replicas` is a `*int32` pointer in Go, hence `Option Int`. -/
structure DeploymentModel where
  name : String
  ns : String
  replicas : Option Int
deriving DecidableEq, Repr

/-- Mirror of the local `deployment` struct pairing a Deployment with the
replica set of its current revision (resolved by
`kubectlutil.GetAllReplicaSets` in the `waitForResources` gather loop). -/
structure deploymentPair where
  replicaSets : ReplicaSetModel
  deployment : DeploymentModel
deriving DecidableEq, Repr

/-- The `notReady` loop of `deploymentsReady`.  The Go code dereferences
`*v.deployment.Spec.Replicas` without a nil check; a nil pointer there
panics, which the model renders as `none`. -/
def deploymentsNotReady : List deploymentPair → Option (List String)
  | [] => some []
  | d :: rest =>
    match d.deployment.replicas with
    | none => none
    | some r =>
      match deploymentsNotReady rest with
      | none => none
      | some l =>
        some (if d.replicaSets.readyReplicas < r then
          ("Deployment/" ++ d.deployment.ns ++ "/" ++ d.deployment.name) :: l else l)

/-- `deploymentsReady` returns `(len(notReady) == 0, notReady)`; `none`
models the panic on a nil `Spec.Replicas`. -/
def deploymentsReady (ds : List deploymentPair) : Option (Bool × List String) :=
  (deploymentsNotReady ds).map (fun l => (l.isEmpty, l))

/-! ## Resource objects and the object partitioner
(installer.go lines 449-485) -/

/-- The fields of `object.K8sObject` that the installer core reads or
writes: API group, kind, name, namespace and labels.  The `object` package
itself is an external collaborator. -/
structure K8sObject where
  group : String
  kind : String
  name : String
  ns : String
  labels : List (String × String)
deriving DecidableEq, Repr

/-- `cRDKindObjects`: the objects whose kind is CustomResourceDefinition,
in their original relative order. -/
def cRDKindObjects (objects : List K8sObject) : List K8sObject :=
  objects.filter (fun o => o.kind = "CustomResourceDefinition")

/-- `nsKindObjects`: the objects whose kind is Namespace. -/
def nsKindObjects (objects : List K8sObject) : List K8sObject :=
  objects.filter (fun o => o.kind = "Namespace")

/-- `objectsNotInLists`: the objects in neither given list.  The Go code
filters by pointer identity over sub-slices of the same backing objects,
which coincides with membership here. -/
def objectsNotInLists (objects nsObjs crdObjs : List K8sObject) : List K8sObject :=
  objects.filter (fun o => ¬ (o ∈ nsObjs ∨ o ∈ crdObjs))

/-! ## CRD establishment waiter (`waitForCRDs`, installer.go lines 487-537) -/

inductive CRDConditionType where
  | established
  | namesAccepted
  | otherCond
deriving DecidableEq, Repr

inductive ConditionStatus where
  | conditionTrue
  | conditionFalse
  | conditionUnknown
deriving DecidableEq, Repr

/-- One entry of `crd.Status.Conditions`. -/
structure CRDCondition where
  typ : CRDConditionType
  status : ConditionStatus
  reason : String
deriving DecidableEq, Repr

/-- The inner condition scan of `waitForCRDs`, per CRD: an
`Established`/`ConditionTrue` entry jumps to the next CRD (`continue
descriptor`); a `NamesAccepted`/`ConditionFalse` entry logs a name-conflict
warning and keeps scanning.  Returns whether the CRD counts as established
together with the number of warnings logged before that decision. -/
def crdStatusScan : List CRDCondition → Bool × Nat
  | [] => (false, 0)
  | c :: rest =>
    if c.typ = CRDConditionType.established ∧ c.status = ConditionStatus.conditionTrue then
      (true, 0)
    else
      let bw := crdStatusScan rest
      if c.typ = CRDConditionType.namesAccepted ∧ c.status = ConditionStatus.conditionFalse then
        (bw.1, bw.2 + 1)
      else bw

/-- One execution of the poll closure passed to `wait.Poll`: fetch each CRD
name in turn; a fetch error returns `(false, err)` immediately; a CRD whose
conditions lack an established entry returns `(false, nil)`; scanning all
names successfully returns `(true, nil)`. -/
def crdsPollOnce (fetch : String → Except GoErr (List CRDCondition)) :
    List String → Bool × Option GoErr
  | [] => (true, none)
  | n :: rest =>
    match fetch n with
    | Except.error e => (false, some e)
    | Except.ok conds =>
      if (crdStatusScan conds).1 then crdsPollOnce fetch rest else (false, none)

inductive PollOutcome where
  | success
  | errAbort (e : GoErr)
  | timeoutErr
deriving DecidableEq, Repr

/-- `wait.Poll` from `k8s.io/apimachinery`: run the condition each tick; a
non-nil error aborts with it, `done` succeeds, and exhausting the timeout
(modelled as fuel, one unit per `cRDPollInterval` tick) times out. -/
def waitPoll (cond : Nat → Bool × Option GoErr) : Nat → Nat → PollOutcome
  | _, 0 => PollOutcome.timeoutErr
  | tick, fuel + 1 =>
    match cond tick with
    | (_, some e) => PollOutcome.errAbort e
    | (true, none) => PollOutcome.success
    | (false, none) => waitPoll cond (tick + 1) fuel

/-- `waitForCRDs`: dry-run returns success immediately without polling;
otherwise poll the names of the CRD-kind objects.  The fetch oracle takes
the tick number so the cluster state may change between polls. -/
def waitForCRDs (objects : List K8sObject) (dryRun : Bool)
    (fetch : Nat → String → Except GoErr (List CRDCondition)) (fuel : Nat) : PollOutcome :=
  if dryRun then PollOutcome.success
  else
    waitPoll (fun tick => crdsPollOnce (fetch tick) ((cRDKindObjects objects).map K8sObject.name))
      0 fuel

/-! ## The dependency declaration and install tree
(installer.go lines 97-134 and 730-740) -/

/-- Modelled from the spec: the component name constants live in the
external `name` package; the spec's data model fixes only that they are
opaque unique identifiers such as `Base` and `Pilot`. -/
def IstioBaseComponentName : ComponentName := "Base"

/-- The sixteen declared children of the base component, in declaration
order (`componentDependencies` in the source; string values modelled from
the spec as for `IstioBaseComponentName`). -/
def baseChildren : List ComponentName :=
  ["Pilot", "Policy", "Telemetry", "Galley", "Citadel", "NodeAgent", "CertManager",
   "SidecarInjector", "Ingress", "Egress", "CNI", "PrometheusOperator", "Prometheus",
   "Grafana", "Kiali", "Tracing"]

/-- `componentDependencies`: the static parent-to-children declaration. -/
def componentDependencies : List (ComponentName × List ComponentName) :=
  [(IstioBaseComponentName, baseChildren)]

/-- Association lookup in the static dependency table (a Go map read;
absent keys yield the empty child list). -/
def lookupDeps : List (ComponentName × List ComponentName) → ComponentName → List ComponentName
  | [], _ => []
  | p :: rest, k => if p.1 = k then p.2 else lookupDeps rest k

/-- The children declared for a component (empty when undeclared). -/
def childrenOf (c : ComponentName) : List ComponentName :=
  lookupDeps componentDependencies c

/-- Whether `init` creates a dependency gate for `c`: true exactly when `c`
appears in some parent's child list (`dependencyWaitCh`). -/
def hasGate (c : ComponentName) : Bool :=
  componentDependencies.any (fun p => p.2.contains c)

mutual
/-- `componentTree`: a map from component names to subtrees.  In the source
the values are `interface{}` but `insertChildrenRecursive` only ever stores
`componentTree` values, so the leaf type-assertion branch of
`renderRecursive` is dead and the tree is total.  The children map is
represented as its entry list (`TreeKids`), mutually with the tree, so that
the renderer below is structurally recursive. -/
inductive ComponentTreeM where
  | node : TreeKids → ComponentTreeM
/-- Entry list of a `componentTree`: name and subtree pairs. -/
inductive TreeKids where
  | nil : TreeKids
  | cons : ComponentName → ComponentTreeM → TreeKids → TreeKids
end

/-- One childless subtree entry per listed component. -/
def leafKids : List ComponentName → TreeKids
  | [] => TreeKids.nil
  | c :: rest => TreeKids.cons c (ComponentTreeM.node TreeKids.nil) (leafKids rest)

/-- `installTree` after `buildInstallTree`: `insertChildrenRecursive`
starting from the root inserts each declared child under its parent,
recursively.  On the static table this fixpoint is: the root maps to one
subtree per member of `baseChildren`, each childless (no child of the base
component declares children of its own, so their recursive insertions stop
at empty trees). -/
def installTree : TreeKids :=
  TreeKids.cons IstioBaseComponentName (ComponentTreeM.node (leafKids baseChildren)) TreeKids.nil

/-! ## RenderToDir (`renderRecursive`, installer.go lines 155-195) -/

/-- `filepath.Join` restricted to the non-empty, unslashed segments the
renderer produces. -/
def pathJoin (a b : String) : String := a ++ "/" ++ b

/-- The filesystem effects of `renderRecursive`: the directories created
(`os.MkdirAll`) and the files written (`ioutil.WriteFile`), in order.  An
empty manifest entry skips the component AND its whole subtree
(`continue`); under dry-run nothing is created; the recursion passes the
component's own directory as the child output dir. -/
def renderRecursive (manifests : ComponentName → String) :
    TreeKids → String → Bool → List String × List (String × String)
  | TreeKids.nil, _, _ => ([], [])
  | TreeKids.cons k v rest, outputDir, dryRun =>
    if manifests k = "" then renderRecursive manifests rest outputDir dryRun
    else
      let dirName := pathJoin outputDir k
      let fname := pathJoin dirName k ++ ".yaml"
      let dirs : List String := if dryRun then [] else [dirName]
      let files : List (String × String) := if dryRun then [] else [(fname, manifests k)]
      let sub :=
        match v with
        | ComponentTreeM.node kids => renderRecursive manifests kids dirName dryRun
      let restOut := renderRecursive manifests rest outputDir dryRun
      (dirs ++ sub.1 ++ restOut.1, files ++ sub.2 ++ restOut.2)

/-- `RenderToDir` walks the global install tree. -/
def RenderToDir (manifests : ComponentName → String) (outputDir : String) (dryRun : Bool) :
    List String × List (String × String) :=
  renderRecursive manifests installTree outputDir dryRun

/-! ## Labels (installer.go lines 55-72) -/

/-- Modelled from the spec: `name.OperatorAPINamespace` lives in the
external `name` package; the spec only fixes that the three label keys are
stable.  Its concrete value is irrelevant to every claim below. -/
def OperatorAPINamespace : String := "operator.istio.io"

/-- `operatorReconcileStr`. -/
def operatorReconcileStr : String := "Reconcile"

/-- `operatorLabelStr`. -/
def operatorLabelStr : String := OperatorAPINamespace ++ "/managed"

/-- `istioComponentLabelStr`. -/
def istioComponentLabelStr : String := OperatorAPINamespace ++ "/component"

/-- `istioVersionLabelStr`. -/
def istioVersionLabelStr : String := OperatorAPINamespace ++ "/version"

/-! ## GetKubectlGetItems (installer.go lines 384-401) -/

/-- The shape of a decoded yaml value, as far as `GetKubectlGetItems`
inspects it after `yaml.Unmarshal` into `map[string]interface{}` (the
unmarshal oracle returns the top-level map's entry list directly, or an
error for non-map input). -/
inductive YamlVal where
  | str : String → YamlVal
  | arr : List YamlVal → YamlVal
  | mapv : List (String × YamlVal) → YamlVal
  | nullv : YamlVal

/-- `GetKubectlGetItems`: unmarshal the `kubectl get` output, require the
root `kind` to be `List` (a missing or non-string kind compares unequal to
"List" in Go and fails the same way), require an `items` key, and require
its value to be a sequence. -/
def GetKubectlGetItems (unmarshal : String → Except GoErr (List (String × YamlVal)))
    (stdoutGet : String) : Except GoErr (List YamlVal) :=
  match unmarshal stdoutGet with
  | Except.error e => Except.error e
  | Except.ok yamlGet =>
    match yamlGet.lookup "kind" with
    | some (YamlVal.str s) =>
      if s = "List" then
        match yamlGet.lookup "items" with
        | none => Except.error "`kubectl get` returned a yaml without 'items' in the root"
        | some (YamlVal.arr items) => Except.ok items
        | some _ => Except.error "`kubectl get` returned a yaml incorrecnt type 'items' in the root"
      else Except.error "`kubectl get` returned a yaml whose kind is not List"
    | _ => Except.error "`kubectl get` returned a yaml whose kind is not List"

/-! ## ComponentApplyOutput (installer.go lines 74-86 and 403-411) -/

/-- `ComponentApplyOutput`: stdout, stderr, error and the manifest built
from the applied objects. -/
structure ComponentApplyOutput where
  Stdout : String
  Stderr : String
  Err : Option GoErr
  Manifest : String
deriving DecidableEq, Repr

/-- `buildComponentApplyOutput`; the yaml serializer for the recorded
manifest is an oracle (its error return is discarded by the Go code). -/
def buildComponentApplyOutput (yamlManifest : List K8sObject → String)
    (stdout stderr : String) (objects : List K8sObject) (err : Option GoErr) :
    ComponentApplyOutput :=
  ComponentApplyOutput.mk stdout stderr err (yamlManifest objects)

/-! ## The apply engine (`applyManifest`, installer.go lines 262-382) -/

/-- One delegated invocation of an external executor or waiter, recorded in
order so the theorems can state which steps ran. -/
inductive KubeCall where
  | getAllCall : (ns fmt : String) → (args : List String) → KubeCall
  | deleteCall : (payload : String) → (args : List String) → KubeCall
  | applyCall : (ns manifest : String) → (args : List String) → KubeCall
  | waitResCall : (objs : List K8sObject) → KubeCall
  | waitCRDsCall : (objs : List K8sObject) → (dryRun : Bool) → KubeCall
deriving DecidableEq, Repr

/-- The external collaborators of `applyManifest`: the `object` package
parser/serializers and stable sort, the `kubectlcmd` executor, the yaml
unmarshaller, and the two waiters (whose internals are modelled separately;
here only their error result matters).  Kubeconfig/context pass-through
strings are opaque and omitted. -/
structure Env where
  parseManifest : String → Except GoErr (List K8sObject)
  yamlUnmarshal : String → Except GoErr (List (String × YamlVal))
  yamlManifest : List K8sObject → String
  jsonManifest : List K8sObject → Except GoErr String
  getAll : (ns fmt : String) → (args : List String) → String × String × Option GoErr
  del : (dryRun verbose : Bool) → (ns payload : String) → (args : List String) →
        String × String × Option GoErr
  applyK : (dryRun verbose : Bool) → (ns manifest : String) → (args : List String) →
        String × String × Option GoErr
  sortObjs : List K8sObject → List K8sObject
  waitResources : List K8sObject → Option GoErr
  waitCRDs : List K8sObject → Bool → Option GoErr

/-- `InstallOptions` (timeout and connection fields are opaque here). -/
structure InstallOptions where
  DryRun : Bool
  Verbose : Bool
  Wait : Bool
deriving DecidableEq, Repr

/-- The result triple of the apply engine model: the outcome, the
successfully-applied objects, and the ordered delegated calls. -/
abbrev ApplyResult := ComponentApplyOutput × List K8sObject × List KubeCall

/-- The label-stamping loop at the top of the enabled path: each object
gets the component, managed-by and version labels. -/
def labelObjects (componentName : ComponentName) (versionStr : String)
    (objects : List K8sObject) : List K8sObject :=
  objects.map (fun o =>
    { o with labels := o.labels ++
        [(istioComponentLabelStr, componentName), (operatorLabelStr, operatorReconcileStr),
         (istioVersionLabelStr, versionStr)] })

/-- The namespace scan of the same loop: the last non-empty object
namespace wins ("all objects in a component have the same namespace"). -/
def componentNamespace (objects : List K8sObject) : String :=
  objects.foldl (fun acc o => if o.ns ≠ "" then o.ns else acc) ""

/-- Steps 6 of the enabled path: serialize and apply the
non-namespace/non-CRD remainder.  NOTE (verified below): the remainder
objects are appended to `appliedObjects` BEFORE the error check, so they
are reported as applied even when this final apply fails. -/
def applyManifestRestStage (env : Env) (opts : InstallOptions)
    (namespaceName : String) (extraArgs : List String)
    (sortedObjects nsObjects crdObjects : List K8sObject)
    (stdout stderr : String) (appliedObjects : List K8sObject) (calls : List KubeCall) :
    ApplyResult :=
  let nonNsCrdObjects := objectsNotInLists sortedObjects nsObjects crdObjects
  match env.jsonManifest nonNsCrdObjects with
  | Except.error e =>
    (buildComponentApplyOutput env.yamlManifest stdout stderr appliedObjects (some e),
      appliedObjects, calls)
  | Except.ok m =>
    match env.applyK opts.DryRun opts.Verbose namespaceName m extraArgs with
    | (so, se, err) =>
      let stdout1 := stdout ++ ("\n" ++ so)
      let stderr1 := stderr ++ ("\n" ++ se)
      let applied1 := appliedObjects ++ nonNsCrdObjects
      (buildComponentApplyOutput env.yamlManifest stdout1 stderr1 applied1 err,
        applied1, calls ++ [KubeCall.applyCall namespaceName m extraArgs])

/-- Step 5 of the enabled path: serialize and apply the CRD objects, then
wait for their establishment; any error short-circuits with the outcome so
far.  The whole sorted object list is passed to the CRD waiter, exactly as
`waitForCRDs(objects, opts.DryRun)` does. -/
def applyManifestCrdStage (env : Env) (opts : InstallOptions)
    (namespaceName : String) (extraArgs : List String)
    (sortedObjects nsObjects : List K8sObject)
    (stdout stderr : String) (appliedObjects : List K8sObject) (calls : List KubeCall) :
    ApplyResult :=
  let crdObjects := cRDKindObjects sortedObjects
  if crdObjects.isEmpty then
    applyManifestRestStage env opts namespaceName extraArgs sortedObjects nsObjects crdObjects
      stdout stderr (appliedObjects ++ crdObjects) calls
  else
    match env.jsonManifest crdObjects with
    | Except.error e =>
      (buildComponentApplyOutput env.yamlManifest stdout stderr appliedObjects (some e),
        appliedObjects, calls)
    | Except.ok mcrd =>
      match env.applyK opts.DryRun opts.Verbose namespaceName mcrd extraArgs with
      | (so, se, errA) =>
        let stdout1 := stdout ++ ("\n" ++ so)
        let stderr1 := stderr ++ ("\n" ++ se)
        let calls1 := calls ++ [KubeCall.applyCall namespaceName mcrd extraArgs]
        match errA with
        | some e =>
          (buildComponentApplyOutput env.yamlManifest stdout1 stderr1 appliedObjects (some e),
            appliedObjects, calls1)
        | none =>
          let calls2 := calls1 ++ [KubeCall.waitCRDsCall sortedObjects opts.DryRun]
          match env.waitCRDs sortedObjects opts.DryRun with
          | some e =>
            (buildComponentApplyOutput env.yamlManifest stdout1 stderr1 appliedObjects (some e),
              appliedObjects, calls2)
          | none =>
            applyManifestRestStage env opts namespaceName extraArgs sortedObjects nsObjects
              crdObjects stdout1 stderr1 (appliedObjects ++ crdObjects) calls2

/-- Step 4 of the enabled path: serialize and apply the Namespace objects,
then wait for their readiness; any error short-circuits. -/
def applyManifestNsStage (env : Env) (opts : InstallOptions)
    (namespaceName : String) (extraArgs : List String)
    (sortedObjects : List K8sObject) : ApplyResult :=
  let nsObjects := nsKindObjects sortedObjects
  if nsObjects.isEmpty then
    applyManifestCrdStage env opts namespaceName extraArgs sortedObjects nsObjects
      "" "" nsObjects []
  else
    match env.jsonManifest nsObjects with
    | Except.error e =>
      (buildComponentApplyOutput env.yamlManifest "" "" [] (some e), [], [])
    | Except.ok mns =>
      match env.applyK opts.DryRun opts.Verbose namespaceName mns extraArgs with
      | (so, se, errA) =>
        let stdout1 := "" ++ ("\n" ++ so)
        let stderr1 := "" ++ ("\n" ++ se)
        let calls1 := [KubeCall.applyCall namespaceName mns extraArgs]
        match errA with
        | some e =>
          (buildComponentApplyOutput env.yamlManifest stdout1 stderr1 [] (some e), [], calls1)
        | none =>
          let calls2 := calls1 ++ [KubeCall.waitResCall nsObjects]
          match env.waitResources nsObjects with
          | some e =>
            (buildComponentApplyOutput env.yamlManifest stdout1 stderr1 [] (some e), [], calls2)
          | none =>
            applyManifestCrdStage env opts namespaceName extraArgs sortedObjects nsObjects
              stdout1 stderr1 nsObjects calls2

/-- `applyManifest`: parse; on an empty object set run the prune path
(lookup by component label, then delete if anything is live); otherwise
label, sort and run the namespace/CRD/remainder stages. -/
def applyManifest (env : Env) (componentName : ComponentName) (manifestStr : String)
    (versionStr : String) (opts : InstallOptions) : ApplyResult :=
  let componentLabel := istioComponentLabelStr ++ "=" ++ componentName
  match env.parseManifest manifestStr with
  | Except.error e =>
    (buildComponentApplyOutput env.yamlManifest "" "" [] (some e), [], [])
  | Except.ok objects =>
    if objects.isEmpty then
      let extraArgsGet := ["--all-namespaces", "--selector", componentLabel]
      let calls0 := [KubeCall.getAllCall "" "yaml" extraArgsGet]
      match env.getAll "" "yaml" extraArgsGet with
      | (stdoutGet, stderrGet, some e) =>
        (buildComponentApplyOutput env.yamlManifest ("" ++ ("\n" ++ stdoutGet))
            ("" ++ ("\n" ++ stderrGet)) [] (some e), [], calls0)
      | (stdoutGet, _stderrGet, none) =>
        match GetKubectlGetItems env.yamlUnmarshal stdoutGet with
        | Except.error e =>
          (buildComponentApplyOutput env.yamlManifest "" "" [] (some e), [], calls0)
        | Except.ok items =>
          if items.isEmpty then
            (buildComponentApplyOutput env.yamlManifest "" "" [] none, [], calls0)
          else
            match env.parseManifest stdoutGet with
            | Except.error e =>
              (buildComponentApplyOutput env.yamlManifest "" "" [] (some e), [], calls0)
            | Except.ok delObjects =>
              let extraArgsDel := ["--selector", componentLabel]
              match env.del opts.DryRun opts.Verbose "" stdoutGet extraArgsDel with
              | (stdoutDel, stderrDel, errDel) =>
                let calls1 := calls0 ++ [KubeCall.deleteCall stdoutGet extraArgsDel]
                let stdout1 := "" ++ ("\n" ++ stdoutDel)
                let stderr1 := "" ++ ("\n" ++ stderrDel)
                match errDel with
                | some e =>
                  (buildComponentApplyOutput env.yamlManifest stdout1 stderr1 [] (some e),
                    [], calls1)
                | none =>
                  (buildComponentApplyOutput env.yamlManifest stdout1 stderr1 delObjects none,
                    delObjects, calls1)
    else
      let sortedObjects := env.sortObjs (labelObjects componentName versionStr objects)
      let namespaceName := componentNamespace objects
      let extraArgs := ["--force"] ++
        (if componentName ≠ IstioBaseComponentName then
          ["--prune", "--selector", componentLabel] else [])
      applyManifestNsStage env opts namespaceName extraArgs sortedObjects

/-! ## The orchestrator result shape (`ApplyAll`/`applyRecursive`,
installer.go lines 213-260) -/

/-- The sequential result content of `applyRecursive`: one outcome per
component of the manifest map, the concatenation of all applied objects,
and — when `opts.Wait` is set — the final cluster-wide readiness result as
the returned error.  (Which interleaving produced the map does not change
its contents; the scheduling itself is modelled by `execTrace` below.) -/
def applyRecursiveModel (env : Env) (manifests : List (ComponentName × String))
    (versionStr : String) (opts : InstallOptions) :
    List (ComponentName × ComponentApplyOutput) × Option GoErr :=
  let results := manifests.map (fun p => (p.1, applyManifest env p.1 p.2 versionStr opts))
  let out := results.map (fun r => (r.1, r.2.1))
  let allAppliedObjects := results.flatMap (fun r => r.2.2.1)
  (out, if opts.Wait then env.waitResources allAppliedObjects else none)

/-- `ApplyAll`: resolve the cluster connection first (`initK8SRestClient`);
its failure aborts before any component task exists; otherwise the per-
component outcomes are always produced and only the final wait can
contribute a top-level error. -/
def ApplyAllModel (connectErr : Option GoErr) (env : Env)
    (manifests : List (ComponentName × String)) (versionStr : String)
    (opts : InstallOptions) :
    Option (List (ComponentName × ComponentApplyOutput)) × Option GoErr :=
  match connectErr with
  | some e => (none, some e)
  | none =>
    let r := applyRecursiveModel env manifests versionStr opts
    (some r.1, r.2)

/-! ## Concrete environments used as evaluation witnesses -/

/-- A concrete environment in which the component's manifest parses to no
objects and the cluster has no live labelled objects. -/
def env6a : Env :=
  Env.mk (fun _ => Except.ok [])
    (fun _ => Except.ok [("kind", YamlVal.str "List"), ("items", YamlVal.arr [])])
    (fun _ => "") (fun _ => Except.ok "") (fun _ _ _ => ("got", "", none))
    (fun _ _ _ _ _ => ("", "", none)) (fun _ _ _ _ _ => ("", "", none)) (fun l => l)
    (fun _ => none) (fun _ _ => none)

/-- A concrete environment in which the lookup finds one live labelled
object and the delete succeeds. -/
def env6b : Env :=
  Env.mk (fun s => if s = "mm" then Except.ok [] else Except.ok [K8sObject.mk "g" "k" "n" "" []])
    (fun _ => Except.ok [("kind", YamlVal.str "List"), ("items", YamlVal.arr [YamlVal.nullv])])
    (fun _ => "") (fun _ => Except.ok "") (fun _ _ _ => ("got", "", none))
    (fun _ _ _ _ _ => ("deleted", "", none)) (fun _ _ _ _ _ => ("", "", none)) (fun l => l)
    (fun _ => none) (fun _ _ => none)

/-- A concrete environment whose manifest parses to a single ConfigMap (no
namespaces, no CRDs) and whose final remainder apply fails. -/
def env8cx : Env :=
  Env.mk (fun _ => Except.ok [K8sObject.mk "" "ConfigMap" "cm" "" []])
    (fun _ => Except.ok []) (fun _ => "") (fun _ => Except.ok "J")
    (fun _ _ _ => ("", "", none)) (fun _ _ _ _ _ => ("", "", none))
    (fun _ _ _ _ _ => ("so", "se", some "boom")) (fun l => l)
    (fun _ => none) (fun _ _ => none)

/-- A concrete environment whose manifest parses to one Namespace object
and whose namespace-group serialization fails. -/
def env8w : Env :=
  Env.mk (fun _ => Except.ok [K8sObject.mk "" "Namespace" "istio-system" "istio-system" []])
    (fun _ => Except.ok []) (fun _ => "") (fun _ => Except.error "serr")
    (fun _ _ _ => ("", "", none)) (fun _ _ _ _ _ => ("", "", none))
    (fun _ _ _ _ _ => ("", "", none)) (fun l => l)
    (fun _ => none) (fun _ _ => none)

/-! ## The dependency-gate scheduler
(`init` and `applyRecursive`, installer.go lines 126-134 and 226-260)

One goroutine runs per component of the manifest map.  Its observable
behaviour is: optionally receive from its dependency gate channel, run
`applyManifest` (atomically for ordering purposes, since it is a synchronous
call), then send one signal to the channel of every declared child —
unconditionally, whatever the apply outcome was.  The model is a small-step
interleaving semantics over these per-goroutine programs; channels have
capacity one as in `make(chan struct{}, 1)`. -/

/-- One observable action of a component's goroutine. -/
inductive GoAction where
  | recv
  | applyStep
  | signal : ComponentName → GoAction
deriving DecidableEq, Repr

/-- A scheduled event: which component's goroutine performed which action. -/
structure Event where
  c : ComponentName
  a : GoAction
deriving DecidableEq, Repr

/-- The action sequence of the goroutine spawned for component `c`: wait on
the gate when one exists, apply, then signal every declared child in
declaration order. -/
def program (c : ComponentName) : List GoAction :=
  (if hasGate c then [GoAction.recv] else []) ++ [GoAction.applyStep] ++
    (childrenOf c).map GoAction.signal

/-- The channels created by `init`: one per declared child of any parent. -/
def gateChildren : List ComponentName := componentDependencies.flatMap Prod.snd

/-- Scheduler state: the next program position of each goroutine and the
buffered signal count of each gate channel (both as association lists so
the semantics is executable). -/
structure SchedState where
  pc : List (ComponentName × Nat)
  chan : List (ComponentName × Nat)
deriving DecidableEq, Repr

/-- Association-list lookup with default 0. -/
def lookupD : List (ComponentName × Nat) → ComponentName → Nat
  | [], _ => 0
  | p :: rest, k => if p.1 = k then p.2 else lookupD rest k

/-- Association-list update (no-op on absent keys). -/
def setK (l : List (ComponentName × Nat)) (k : ComponentName) (v : Nat) :
    List (ComponentName × Nat) :=
  l.map (fun p => if p.1 = k then (p.1, v) else p)

/-- Initial state: every goroutine at position zero, every gate empty. -/
def initState (tasks : List ComponentName) : SchedState :=
  SchedState.mk (tasks.map (fun c => (c, 0))) (gateChildren.map (fun c => (c, 0)))

/-- One interleaving step: the named goroutine performs its next program
action, provided it exists and its guard holds — a receive needs a buffered
signal, a send needs room in the capacity-one channel. -/
def execEvent (tasks : List ComponentName) (s : SchedState) (e : Event) : Option SchedState :=
  if e.c ∈ tasks then
    match (program e.c)[lookupD s.pc e.c]? with
    | none => none
    | some a =>
      if a = e.a then
        match a with
        | GoAction.recv =>
          if 0 < lookupD s.chan e.c then
            some (SchedState.mk (setK s.pc e.c (lookupD s.pc e.c + 1))
              (setK s.chan e.c (lookupD s.chan e.c - 1)))
          else none
        | GoAction.applyStep =>
          some (SchedState.mk (setK s.pc e.c (lookupD s.pc e.c + 1)) s.chan)
        | GoAction.signal ch =>
          if lookupD s.chan ch < 1 then
            some (SchedState.mk (setK s.pc e.c (lookupD s.pc e.c + 1))
              (setK s.chan ch (lookupD s.chan ch + 1)))
          else none
      else none
  else none

/-- Run a whole interleaving. -/
def execTrace (tasks : List ComponentName) : SchedState → List Event → Option SchedState
  | s, [] => some s
  | s, e :: t =>
    match execEvent tasks s e with
    | none => none
    | some s1 => execTrace tasks s1 t

/-- All goroutines have finished (what `wg.Wait()` returning means). -/
def CompleteState (tasks : List ComponentName) (s : SchedState) : Prop :=
  ∀ c ∈ tasks, lookupD s.pc c = (program c).length

instance (tasks : List ComponentName) (s : SchedState) :
    Decidable (CompleteState tasks s) := by
  unfold CompleteState
  infer_instance

/-- Signals sent so far to the gate of `ch`, by anyone. -/
def sigCount (t : List Event) (ch : ComponentName) : Nat :=
  t.countP (fun e => decide (e.a = GoAction.signal ch))

/-- Receives performed so far by the goroutine of `c`. -/
def recvCount (t : List Event) (c : ComponentName) : Nat :=
  t.countP (fun e => decide (e = Event.mk c GoAction.recv))

/-- The actions performed so far by the goroutine of `c`, in order. -/
def eventsOf (c : ComponentName) (t : List Event) : List GoAction :=
  (t.filter (fun e => decide (e.c = c))).map Event.a

/-- The reachability invariant of the scheduler: every event belongs to a
launched goroutine; the key sets of the two association lists are fixed;
each goroutine has performed exactly the prefix of its program up to its
position; positions stay in range; and each channel holds the signals sent
to it minus the receives taken from it. -/
def SchedInv (tasks : List ComponentName) (t : List Event) (s : SchedState) : Prop :=
  (∀ e ∈ t, e.c ∈ tasks) ∧
  s.pc.map Prod.fst = tasks ∧
  s.chan.map Prod.fst = gateChildren ∧
  (∀ c, eventsOf c t = (program c).take (lookupD s.pc c)) ∧
  (∀ c, lookupD s.pc c ≤ (program c).length) ∧
  (∀ ch, lookupD s.chan ch + recvCount t ch = sigCount t ch)

/-- The per-index ordering facts provable of every reachable interleaving:
a gated apply is preceded by that component's receive; a receive is
preceded by a signal to that component; a signal comes only from the base
component's goroutine, after its own apply. -/
def OrderingProps (t : List Event) : Prop :=
  (∀ (i : Nat) (c : ComponentName), hasGate c = true →
     t[i]? = some (Event.mk c GoAction.applyStep) →
     ∃ j : Nat, j < i ∧ t[j]? = some (Event.mk c GoAction.recv)) ∧
  (∀ (i : Nat) (c : ComponentName), t[i]? = some (Event.mk c GoAction.recv) →
     ∃ (j : Nat) (p : ComponentName), j < i ∧ t[j]? = some (Event.mk p (GoAction.signal c))) ∧
  (∀ (i : Nat) (p ch : ComponentName), t[i]? = some (Event.mk p (GoAction.signal ch)) →
     p = IstioBaseComponentName ∧
       ∃ k : Nat, k < i ∧ t[k]? = some (Event.mk p GoAction.applyStep))

/-- Total program steps still to run; the termination measure. -/
def remainingSteps (tasks : List ComponentName) (s : SchedState) : Nat :=
  (tasks.map (fun c => (program c).length - lookupD s.pc c)).sum

/-- A concrete complete interleaving for the tasks Base and Pilot: Base
applies, signals all sixteen children, then Pilot receives and applies. -/
def c2WitnessTrace : List Event :=
  Event.mk IstioBaseComponentName GoAction.applyStep ::
    (baseChildren.map (fun ch => Event.mk IstioBaseComponentName (GoAction.signal ch))) ++
    [Event.mk "Pilot" GoAction.recv, Event.mk "Pilot" GoAction.applyStep]

/-- The state reached by `c2WitnessTrace`. -/
def c2WitnessState : SchedState :=
  SchedState.mk [("Base", 17), ("Pilot", 2)]
    [("Pilot", 0), ("Policy", 1), ("Telemetry", 1), ("Galley", 1), ("Citadel", 1),
     ("NodeAgent", 1), ("CertManager", 1), ("SidecarInjector", 1), ("Ingress", 1),
     ("Egress", 1), ("CNI", 1), ("PrometheusOperator", 1), ("Prometheus", 1),
     ("Grafana", 1), ("Kiali", 1), ("Tracing", 1)]

end OperatorManifest

namespace OperatorManifest

/-! ## Theorems for C1, C5, C9, C10 -/

/-- C1: the priority table of `defaultObjectOrder` evaluated over the
canonical group/kind pairs.  The claim says `ConfigMap or Secret -> 100`,
but the code's case arm reads `"/ConfigMap", "/Secrets"`: the Kubernetes
kind is `Secret` (singular), so a real Secret falls through to the default
priority 1000 while the dead string `Secrets` would get 100.  The code's own
comment ("Pods might need configmap or secrets - avoid backoff by creating
them first") shows the intent matches the claim, so this is a code bug. -/
theorem c1_default_object_order_table :
    defaultObjectOrder "apiextensions.k8s.io" "CustomResourceDefinition" = -1000 ∧
    defaultObjectOrder "" "ServiceAccount" = 1 ∧
    defaultObjectOrder "rbac.authorization.k8s.io" "ClusterRole" = 1 ∧
    defaultObjectOrder "rbac.authorization.k8s.io" "ClusterRoleBinding" = 2 ∧
    defaultObjectOrder "" "ConfigMap" = 100 ∧
    defaultObjectOrder "" "Secret" = 1000 ∧
    defaultObjectOrder "" "Secrets" = 100 ∧
    defaultObjectOrder "extensions" "Deployment" = 1000 ∧
    defaultObjectOrder "apps" "Deployment" = 1000 ∧
    defaultObjectOrder "autoscaling" "HorizontalPodAutoscaler" = 1001 ∧
    defaultObjectOrder "" "Service" = 10000 ∧
    defaultObjectOrder "example.com" "SomeUnrecognizedKind" = 1000 := by
  decide

/-- C5 counterexample: a LoadBalancer service whose ingress IS already
assigned but whose cluster IP field is still empty.  The claim calls such a
service ready (it is not ClusterIP-type, and it is a LoadBalancer with an
ingress endpoint), yet the code marks it not ready, because the empty-
cluster-IP check in `servicesReady` is not restricted to ClusterIP-type
services. -/
theorem c5_counterexample :
    specServiceReady (ServiceModel.mk "s" "n" ServiceType.loadBalancer "" (some ["1.2.3.4"])) = true ∧
    (servicesReady [ServiceModel.mk "s" "n" ServiceType.loadBalancer "" (some ["1.2.3.4"])]).1 = false := by
  decide

/-- C5 amended: for every Service examined by the readiness waiter, an
ExternalName-type service is always ready; any other service is not ready
exactly when its cluster IP field is empty (regardless of its type; the
headless value `None` counts as assigned) or it is a LoadBalancer-type
service with no ingress endpoint yet; every other service is ready. -/
theorem c5_services_ready_iff (svcs : List ServiceModel) :
    (servicesReady svcs).1 = true ↔
      ∀ s ∈ svcs, s.typ = ServiceType.externalName ∨
        (s.clusterIP ≠ "" ∧ ¬(s.typ = ServiceType.loadBalancer ∧ s.loadBalancerIngress = none)) := by
  have key : ∀ l : List ServiceModel, (servicesNotReady l = [] ↔
      ∀ s ∈ l, s.typ = ServiceType.externalName ∨
        (s.clusterIP ≠ "" ∧ ¬(s.typ = ServiceType.loadBalancer ∧ s.loadBalancerIngress = none))) := by
    intro l
    induction l with
    | nil => simp [servicesNotReady]
    | cons s rest ih =>
      by_cases hx : s.typ = ServiceType.externalName
      · simp [servicesNotReady, hx, ih]
      · by_cases hip : s.clusterIP = ""
        · have hne : s.clusterIP ≠ clusterIPNone := by
            rw [hip]; intro h; exact absurd h.symm (by decide)
          simp [servicesNotReady, hx, hip, hne, clusterIPNone]
        · by_cases hlb : s.typ = ServiceType.loadBalancer ∧ s.loadBalancerIngress = none
          · simp [servicesNotReady, hx, hip, hlb]
          · have h' : s.typ = ServiceType.loadBalancer → ¬ s.loadBalancerIngress = none := by
              intro ht hi; exact hlb ⟨ht, hi⟩
            simp [servicesNotReady, hx, hip, hlb, ih, h']
            intro _
            exact h'
  rw [servicesReady]
  simp only [List.isEmpty_iff]
  exact key svcs

/-- C9: for every Deployment examined by the waiter (paired with the replica
set of its current revision), when the desired replica count is present the
deployment is ready exactly when the replica set's ready-replica count is at
least the desired count. -/
theorem c9_deployment_ready_iff (d : deploymentPair) (r : Int)
    (h : d.deployment.replicas = some r) :
    (r ≤ d.replicaSets.readyReplicas →
      deploymentsReady [d] = some (true, [])) ∧
    (d.replicaSets.readyReplicas < r →
      deploymentsReady [d] = some (false,
        ["Deployment/" ++ d.deployment.ns ++ "/" ++ d.deployment.name])) := by
  constructor
  · intro hge
    have hlt : ¬ d.replicaSets.readyReplicas < r := not_lt.mpr hge
    simp [deploymentsReady, deploymentsNotReady, h, hlt]
  · intro hlt
    simp [deploymentsReady, deploymentsNotReady, h, hlt, List.isEmpty]

/-- C9 witness: the claim's own example, desired replicas 3 and ready
replicas 2, is reported not-ready; with 3 ready it is reported ready. -/
theorem c9_deployment_ready_witness :
    deploymentsReady [deploymentPair.mk (ReplicaSetModel.mk 2) (DeploymentModel.mk "d" "n" (some 3))]
      = some (false, ["Deployment/n/d"]) ∧
    deploymentsReady [deploymentPair.mk (ReplicaSetModel.mk 3) (DeploymentModel.mk "d" "n" (some 3))]
      = some (true, []) := by
  refine ⟨?_, ?_⟩
  · exact (c9_deployment_ready_iff
      (deploymentPair.mk (ReplicaSetModel.mk 2) (DeploymentModel.mk "d" "n" (some 3))) 3 rfl).2
      (by decide)
  · exact (c9_deployment_ready_iff
      (deploymentPair.mk (ReplicaSetModel.mk 3) (DeploymentModel.mk "d" "n" (some 3))) 3 rfl).1
      (by decide)

/-- C10: the deployment-readiness check dereferences the desired-replica
pointer unconditionally, so it is defined (`some`) exactly when every
examined Deployment carries a desired replica count; an absent
(`nil`/`none`) field anywhere makes the check undefined (a panic in Go). -/
theorem c10_nil_replicas_panics (ds : List deploymentPair) :
    deploymentsReady ds = none ↔ ∃ d ∈ ds, d.deployment.replicas = none := by
  have key : ∀ l : List deploymentPair,
      deploymentsNotReady l = none ↔ ∃ d ∈ l, d.deployment.replicas = none := by
    intro l
    induction l with
    | nil => simp [deploymentsNotReady]
    | cons d rest ih =>
      cases hrep : d.deployment.replicas with
      | none => simp [deploymentsNotReady, hrep]
      | some r =>
        have lhs : (deploymentsNotReady (d :: rest) = none) ↔
            (deploymentsNotReady rest = none) := by
          cases hrest : deploymentsNotReady rest with
          | none => simp [deploymentsNotReady, hrep, hrest]
          | some l' => simp [deploymentsNotReady, hrep, hrest]
        rw [lhs, ih]
        constructor
        · rintro ⟨x, hx, hx2⟩
          exact ⟨x, List.mem_cons_of_mem _ hx, hx2⟩
        · rintro ⟨x, hx, hx2⟩
          rcases List.mem_cons.mp hx with h1 | h1
          · subst h1
            rw [hrep] at hx2
            exact Option.noConfusion hx2
          · exact ⟨x, h1, hx2⟩
  have mapNone : ∀ l : List deploymentPair,
      deploymentsReady l = none ↔ deploymentsNotReady l = none := by
    intro l
    cases h : deploymentsNotReady l with
    | none => simp [deploymentsReady, h]
    | some l' => simp [deploymentsReady, h]
  rw [mapNone, key]

/-! ## Theorems for C4 -/

/-- Scanning a prefix of names that all fetch as established, then hitting
a fetch error, yields an immediate `(false, err)` from the poll closure. -/
theorem crdsPollOnce_abort (fetch : String → Except GoErr (List CRDCondition))
    (pre : List String) (n : String) (post : List String) (e : GoErr)
    (hpre : ∀ m ∈ pre, ∃ conds, fetch m = Except.ok conds ∧ (crdStatusScan conds).1 = true)
    (herr : fetch n = Except.error e) :
    crdsPollOnce fetch (pre ++ n :: post) = (false, some e) := by
  induction pre with
  | nil => simp [crdsPollOnce, herr]
  | cons m rest ih =>
    rcases hpre m (List.mem_cons_self m rest) with ⟨conds, hok, hest⟩
    have ih' := ih (fun m' hm' => hpre m' (List.mem_cons_of_mem _ hm'))
    simp [crdsPollOnce, hok, hest, ih']

/-- C4: the CRD establishment waiter.  (1) Dry-run returns success at once,
without a single poll; (2) a CRD counts as established exactly when some
status condition is `Established` with value true; (3) a
`NamesAccepted=false` condition adds a warning but changes neither the
established verdict nor anything else, and a CRD carrying only that
condition merely reports not-done rather than an error; (4) a fetch error
on the first poll aborts the wait immediately with that error, however much
timeout budget remains. -/
theorem c4_crd_waiter :
    (∀ (objects : List K8sObject) fetch fuel,
        waitForCRDs objects true fetch fuel = PollOutcome.success) ∧
    (∀ conds : List CRDCondition, (crdStatusScan conds).1 = true ↔
        ∃ c ∈ conds, c.typ = CRDConditionType.established ∧
          c.status = ConditionStatus.conditionTrue) ∧
    (∀ (c : CRDCondition) conds, c.typ = CRDConditionType.namesAccepted →
        c.status = ConditionStatus.conditionFalse →
        (crdStatusScan (c :: conds)).1 = (crdStatusScan conds).1 ∧
        (crdStatusScan (c :: conds)).2 = (crdStatusScan conds).2 + 1) ∧
    (∀ (fetch : String → Except GoErr (List CRDCondition)),
        crdsPollOnce fetch [] = (true, none)) ∧
    (∀ objects (fetch : Nat → String → Except GoErr (List CRDCondition)) fuel pre n post e,
        (cRDKindObjects objects).map K8sObject.name = pre ++ n :: post →
        (∀ m ∈ pre, ∃ conds, fetch 0 m = Except.ok conds ∧ (crdStatusScan conds).1 = true) →
        fetch 0 n = Except.error e →
        waitForCRDs objects false fetch (fuel + 1) = PollOutcome.errAbort e) := by
  refine ⟨?_, ?_, ?_, ?_, ?_⟩
  · intro objects fetch fuel
    simp [waitForCRDs]
  · intro conds
    induction conds with
    | nil => simp [crdStatusScan]
    | cons c rest ih =>
      by_cases hc : c.typ = CRDConditionType.established ∧
          c.status = ConditionStatus.conditionTrue
      · simp [crdStatusScan, hc]
      · by_cases hn : c.typ = CRDConditionType.namesAccepted ∧
            c.status = ConditionStatus.conditionFalse
        · simp [crdStatusScan, hc, hn, ih]
        · simp [crdStatusScan, hc, hn, ih]
  · intro c conds htyp hstat
    have hc : ¬ (c.typ = CRDConditionType.established ∧
        c.status = ConditionStatus.conditionTrue) := by
      intro h; rw [htyp] at h; exact absurd h.1 (by decide)
    constructor
    · simp [crdStatusScan, hc, htyp, hstat]
    · simp [crdStatusScan, hc, htyp, hstat]
  · intro fetch
    rfl
  · intro objects fetch fuel pre n post e hnames hpre herr
    have habort := crdsPollOnce_abort (fetch 0) pre n post e hpre herr
    rw [waitForCRDs]
    simp only [if_neg (by decide : ¬ (false : Bool) = true)]
    rw [waitPoll]
    rw [hnames, habort]

/-- C4 witness: a dry run returns success with zero budget; an established
CRD is recognized; a lone name-conflict condition warns without failing;
and a first-poll API error aborts with that error despite remaining
budget. -/
theorem c4_crd_waiter_witness :
    waitForCRDs [K8sObject.mk "apiextensions.k8s.io" "CustomResourceDefinition" "a" "" []]
        true (fun _ _ => Except.error "unreachable") 0 = PollOutcome.success ∧
    (crdStatusScan [CRDCondition.mk CRDConditionType.established ConditionStatus.conditionTrue ""]).1
        = true ∧
    crdStatusScan [CRDCondition.mk CRDConditionType.namesAccepted ConditionStatus.conditionFalse "conflict"]
        = (false, 1) ∧
    waitForCRDs [K8sObject.mk "apiextensions.k8s.io" "CustomResourceDefinition" "a" "" []]
        false (fun _ _ => Except.error "api down") 7 = PollOutcome.errAbort "api down" := by
  refine ⟨?_, ?_, ?_, ?_⟩
  · exact c4_crd_waiter.1 _ _ _
  · exact (c4_crd_waiter.2.1 _).mpr
      ⟨CRDCondition.mk CRDConditionType.established ConditionStatus.conditionTrue "",
        by decide, by decide, by decide⟩
  · have h := c4_crd_waiter.2.2.1
      (CRDCondition.mk CRDConditionType.namesAccepted ConditionStatus.conditionFalse "conflict")
      [] rfl rfl
    have h1 : (crdStatusScan ([] : List CRDCondition)).1 = false := by decide
    have h2 : (crdStatusScan ([] : List CRDCondition)).2 = 0 := by decide
    rcases h with ⟨ha, hb⟩
    rw [h1] at ha
    rw [h2] at hb
    exact Prod.ext ha hb
  · exact c4_crd_waiter.2.2.2.2
      [K8sObject.mk "apiextensions.k8s.io" "CustomResourceDefinition" "a" "" []]
      (fun _ _ => Except.error "api down") 6 [] "a" [] "api down" rfl
      (by intro m hm; exact absurd hm (List.not_mem_nil m)) rfl

/-! ## Theorems for C3 -/

/-- A list of leaf components renders, in order, one directory and one file
per component with a non-empty manifest, under the parent directory; dry
run renders nothing. -/
theorem renderRecursive_leaf_list (manifests : ComponentName → String)
    (cs : List ComponentName) (dir : String) (dryRun : Bool) :
    renderRecursive manifests (leafKids cs) dir dryRun =
      (if dryRun then [] else
        (cs.filter (fun c => manifests c ≠ "")).map (fun c => pathJoin dir c),
       if dryRun then [] else
        (cs.filter (fun c => manifests c ≠ "")).map
          (fun c => (pathJoin (pathJoin dir c) c ++ ".yaml", manifests c))) := by
  induction cs with
  | nil => cases dryRun <;> simp [renderRecursive, leafKids]
  | cons c rest ih =>
    by_cases hc : manifests c = ""
    · cases dryRun <;> simp [renderRecursive, leafKids, hc, ih]
    · cases dryRun <;> simp [renderRecursive, leafKids, hc, ih]

/-- C3 counterexample: with the Base manifest `base-yaml` and the Pilot
manifest `pilot-yaml`, `RenderToDir(out)` writes Pilot's manifest to
`out/Base/Pilot/Pilot.yaml`, nested under its parent's directory, and NOT
to `out/Pilot/Pilot.yaml` as the claim requires. -/
theorem c3_counterexample :
    (RenderToDir
        (fun c => if c = "Base" then "base-yaml" else if c = "Pilot" then "pilot-yaml" else "")
        "out" false).2 =
      [("out/Base/Base.yaml", "base-yaml"), ("out/Base/Pilot/Pilot.yaml", "pilot-yaml")] ∧
    ("out/Pilot/Pilot.yaml", "pilot-yaml") ∉
      (RenderToDir
        (fun c => if c = "Base" then "base-yaml" else if c = "Pilot" then "pilot-yaml" else "")
        "out" false).2 := by
  decide

/-! ## Theorems for C6 -/

/-- C6: the disabled-component (empty manifest) path of the apply engine.
(a) When the labelled live-object lookup returns zero items, the outcome is
a no-op success: nil error, empty stdout/stderr, no applied objects, and no
further executor call after the get.  (b) When it returns at least one item
(and the get output parses), exactly one delete invocation is issued,
scoped to the component's identity-label selector.  (c,d,e) Errors from the
lookup, from decoding its output, or from the delete are recorded in the
outcome's error field (the function still returns an outcome; nothing is
propagated). -/
theorem c6_empty_manifest_prune (env : Env) (c m v : String) (opts : InstallOptions)
    (hparse : env.parseManifest m = Except.ok []) :
    (∀ so se,
      env.getAll "" "yaml"
          ["--all-namespaces", "--selector", istioComponentLabelStr ++ "=" ++ c] =
        (so, se, none) →
      GetKubectlGetItems env.yamlUnmarshal so = Except.ok [] →
      applyManifest env c m v opts =
        (ComponentApplyOutput.mk "" "" none (env.yamlManifest []), [],
          [KubeCall.getAllCall "" "yaml"
            ["--all-namespaces", "--selector", istioComponentLabelStr ++ "=" ++ c]])) ∧
    (∀ so se items dels,
      env.getAll "" "yaml"
          ["--all-namespaces", "--selector", istioComponentLabelStr ++ "=" ++ c] =
        (so, se, none) →
      GetKubectlGetItems env.yamlUnmarshal so = Except.ok items → items ≠ [] →
      env.parseManifest so = Except.ok dels →
      (applyManifest env c m v opts).2.2 =
        [KubeCall.getAllCall "" "yaml"
            ["--all-namespaces", "--selector", istioComponentLabelStr ++ "=" ++ c],
         KubeCall.deleteCall so ["--selector", istioComponentLabelStr ++ "=" ++ c]]) ∧
    (∀ so se e,
      env.getAll "" "yaml"
          ["--all-namespaces", "--selector", istioComponentLabelStr ++ "=" ++ c] =
        (so, se, some e) →
      (applyManifest env c m v opts).1.Err = some e ∧
      (applyManifest env c m v opts).2.1 = []) ∧
    (∀ so se e,
      env.getAll "" "yaml"
          ["--all-namespaces", "--selector", istioComponentLabelStr ++ "=" ++ c] =
        (so, se, none) →
      GetKubectlGetItems env.yamlUnmarshal so = Except.error e →
      (applyManifest env c m v opts).1.Err = some e ∧
      (applyManifest env c m v opts).2.1 = []) ∧
    (∀ so se items dels sd sed e,
      env.getAll "" "yaml"
          ["--all-namespaces", "--selector", istioComponentLabelStr ++ "=" ++ c] =
        (so, se, none) →
      GetKubectlGetItems env.yamlUnmarshal so = Except.ok items → items ≠ [] →
      env.parseManifest so = Except.ok dels →
      env.del opts.DryRun opts.Verbose "" so ["--selector", istioComponentLabelStr ++ "=" ++ c] =
        (sd, sed, some e) →
      (applyManifest env c m v opts).1.Err = some e ∧
      (applyManifest env c m v opts).2.1 = []) := by
  refine ⟨?_, ?_, ?_, ?_, ?_⟩
  · intro so se hget hitems
    simp [applyManifest, hparse, hget, hitems, buildComponentApplyOutput]
  · intro so se items dels hget hitems hne hdels
    have hne' : items.isEmpty = false := by
      cases items with
      | nil => exact absurd rfl hne
      | cons a l => rfl
    rcases hdel : env.del opts.DryRun opts.Verbose "" so
        ["--selector", istioComponentLabelStr ++ "=" ++ c] with ⟨sd, sed, errDel⟩
    cases errDel with
    | none => simp [applyManifest, hparse, hget, hitems, hne', hdels, hdel]
    | some e => simp [applyManifest, hparse, hget, hitems, hne', hdels, hdel]
  · intro so se e hget
    constructor
    · simp [applyManifest, hparse, hget, buildComponentApplyOutput]
    · simp [applyManifest, hparse, hget, buildComponentApplyOutput]
  · intro so se e hget hitems
    constructor
    · simp [applyManifest, hparse, hget, hitems, buildComponentApplyOutput]
    · simp [applyManifest, hparse, hget, hitems, buildComponentApplyOutput]
  · intro so se items dels sd sed e hget hitems hne hdels hdel
    have hne' : items.isEmpty = false := by
      cases items with
      | nil => exact absurd rfl hne
      | cons a l => rfl
    constructor
    · simp [applyManifest, hparse, hget, hitems, hne', hdels, hdel, buildComponentApplyOutput]
    · simp [applyManifest, hparse, hget, hitems, hne', hdels, hdel, buildComponentApplyOutput]

/-- C6 witness: on `env6a` the prune path is a no-op success with empty
stdout/stderr and no applied objects; on `env6b` it issues exactly the one
label-scoped delete invocation after the lookup. -/
theorem c6_empty_manifest_prune_witness :
    applyManifest env6a "Pilot" "mm" "1.0" (InstallOptions.mk false false false) =
      (ComponentApplyOutput.mk "" "" none "", [],
        [KubeCall.getAllCall "" "yaml"
          ["--all-namespaces", "--selector", istioComponentLabelStr ++ "=" ++ "Pilot"]]) ∧
    (applyManifest env6b "Pilot" "mm" "1.0" (InstallOptions.mk false false false)).2.2 =
      [KubeCall.getAllCall "" "yaml"
          ["--all-namespaces", "--selector", istioComponentLabelStr ++ "=" ++ "Pilot"],
       KubeCall.deleteCall "got" ["--selector", istioComponentLabelStr ++ "=" ++ "Pilot"]] := by
  constructor
  · exact (c6_empty_manifest_prune env6a "Pilot" "mm" "1.0"
      (InstallOptions.mk false false false) rfl).1 "got" "" rfl rfl
  · exact (c6_empty_manifest_prune env6b "Pilot" "mm" "1.0"
      (InstallOptions.mk false false false) rfl).2.1 "got" "" [YamlVal.nullv]
      [K8sObject.mk "g" "k" "n" "" []] rfl rfl (by simp) rfl

/-! ## Theorems for C8 -/

/-- C8 counterexample: when the remainder apply itself fails, the returned
applied-object list is NOT "exactly the objects of steps that completed
successfully before the failure" (which would be empty here): the remainder
objects are appended before the error check, so the failed step's object is
reported as applied alongside the recorded error. -/
theorem c8_counterexample :
    (applyManifest env8cx "Pilot" "mm" "1.0" (InstallOptions.mk false false false)).1.Err =
      some "boom" ∧
    (applyManifest env8cx "Pilot" "mm" "1.0" (InstallOptions.mk false false false)).2.1 ≠ [] := by
  decide

/-- C8 amended: within one component's apply, every executor or
serialization error at a step (namespace serialize/apply, namespace wait,
CRD serialize/apply, CRD establishment wait, remainder serialize/apply)
stops all further steps for that component and is captured in the returned
outcome's error field together with the stdout/stderr accumulated so far.
The applied-object list contains the objects of the groups whose apply AND
wait completed successfully before the failure — except that on a failure
of the final remainder apply the remainder objects are nevertheless
included, because the code appends them before checking that error. -/
theorem c8_step_error_capture (env : Env) (c m v : String) (opts : InstallOptions)
    (objects sorted nsO crdO restO : List K8sObject) (nsName : String)
    (extraArgs : List String)
    (hparse : env.parseManifest m = Except.ok objects)
    (hne : objects.isEmpty = false)
    (hsorted : env.sortObjs (labelObjects c v objects) = sorted)
    (hnsO : nsKindObjects sorted = nsO)
    (hcrdO : cRDKindObjects sorted = crdO)
    (hrestO : objectsNotInLists sorted nsO crdO = restO)
    (hnsName : componentNamespace objects = nsName)
    (hargs : (["--force"] ++
        (if c ≠ IstioBaseComponentName then
          ["--prune", "--selector", istioComponentLabelStr ++ "=" ++ c] else [])) = extraArgs) :
    (∀ e, nsO.isEmpty = false → env.jsonManifest nsO = Except.error e →
      applyManifest env c m v opts =
        (ComponentApplyOutput.mk "" "" (some e) (env.yamlManifest []), [], [])) ∧
    (∀ mns so se e, nsO.isEmpty = false → env.jsonManifest nsO = Except.ok mns →
      env.applyK opts.DryRun opts.Verbose nsName mns extraArgs = (so, se, some e) →
      applyManifest env c m v opts =
        (ComponentApplyOutput.mk ("" ++ ("\n" ++ so)) ("" ++ ("\n" ++ se)) (some e)
            (env.yamlManifest []), [],
          [KubeCall.applyCall nsName mns extraArgs])) ∧
    (∀ mns so se e, nsO.isEmpty = false → env.jsonManifest nsO = Except.ok mns →
      env.applyK opts.DryRun opts.Verbose nsName mns extraArgs = (so, se, none) →
      env.waitResources nsO = some e →
      applyManifest env c m v opts =
        (ComponentApplyOutput.mk ("" ++ ("\n" ++ so)) ("" ++ ("\n" ++ se)) (some e)
            (env.yamlManifest []), [],
          [KubeCall.applyCall nsName mns extraArgs, KubeCall.waitResCall nsO])) ∧
    (∀ mns so se e, nsO.isEmpty = false → env.jsonManifest nsO = Except.ok mns →
      env.applyK opts.DryRun opts.Verbose nsName mns extraArgs = (so, se, none) →
      env.waitResources nsO = none →
      crdO.isEmpty = false → env.jsonManifest crdO = Except.error e →
      applyManifest env c m v opts =
        (ComponentApplyOutput.mk ("" ++ ("\n" ++ so)) ("" ++ ("\n" ++ se)) (some e)
            (env.yamlManifest nsO), nsO,
          [KubeCall.applyCall nsName mns extraArgs, KubeCall.waitResCall nsO])) ∧
    (∀ mns so se mcrd soc sec e, nsO.isEmpty = false → env.jsonManifest nsO = Except.ok mns →
      env.applyK opts.DryRun opts.Verbose nsName mns extraArgs = (so, se, none) →
      env.waitResources nsO = none →
      crdO.isEmpty = false → env.jsonManifest crdO = Except.ok mcrd →
      env.applyK opts.DryRun opts.Verbose nsName mcrd extraArgs = (soc, sec, some e) →
      applyManifest env c m v opts =
        (ComponentApplyOutput.mk (("" ++ ("\n" ++ so)) ++ ("\n" ++ soc))
            (("" ++ ("\n" ++ se)) ++ ("\n" ++ sec)) (some e) (env.yamlManifest nsO), nsO,
          [KubeCall.applyCall nsName mns extraArgs, KubeCall.waitResCall nsO,
           KubeCall.applyCall nsName mcrd extraArgs])) ∧
    (∀ mns so se mcrd soc sec e, nsO.isEmpty = false → env.jsonManifest nsO = Except.ok mns →
      env.applyK opts.DryRun opts.Verbose nsName mns extraArgs = (so, se, none) →
      env.waitResources nsO = none →
      crdO.isEmpty = false → env.jsonManifest crdO = Except.ok mcrd →
      env.applyK opts.DryRun opts.Verbose nsName mcrd extraArgs = (soc, sec, none) →
      env.waitCRDs sorted opts.DryRun = some e →
      applyManifest env c m v opts =
        (ComponentApplyOutput.mk (("" ++ ("\n" ++ so)) ++ ("\n" ++ soc))
            (("" ++ ("\n" ++ se)) ++ ("\n" ++ sec)) (some e) (env.yamlManifest nsO), nsO,
          [KubeCall.applyCall nsName mns extraArgs, KubeCall.waitResCall nsO,
           KubeCall.applyCall nsName mcrd extraArgs,
           KubeCall.waitCRDsCall sorted opts.DryRun])) ∧
    (∀ mns so se mcrd soc sec e, nsO.isEmpty = false → env.jsonManifest nsO = Except.ok mns →
      env.applyK opts.DryRun opts.Verbose nsName mns extraArgs = (so, se, none) →
      env.waitResources nsO = none →
      crdO.isEmpty = false → env.jsonManifest crdO = Except.ok mcrd →
      env.applyK opts.DryRun opts.Verbose nsName mcrd extraArgs = (soc, sec, none) →
      env.waitCRDs sorted opts.DryRun = none →
      env.jsonManifest restO = Except.error e →
      applyManifest env c m v opts =
        (ComponentApplyOutput.mk (("" ++ ("\n" ++ so)) ++ ("\n" ++ soc))
            (("" ++ ("\n" ++ se)) ++ ("\n" ++ sec)) (some e)
            (env.yamlManifest (nsO ++ crdO)), nsO ++ crdO,
          [KubeCall.applyCall nsName mns extraArgs, KubeCall.waitResCall nsO,
           KubeCall.applyCall nsName mcrd extraArgs,
           KubeCall.waitCRDsCall sorted opts.DryRun])) ∧
    (∀ mns so se mcrd soc sec mrest sor ser e,
      nsO.isEmpty = false → env.jsonManifest nsO = Except.ok mns →
      env.applyK opts.DryRun opts.Verbose nsName mns extraArgs = (so, se, none) →
      env.waitResources nsO = none →
      crdO.isEmpty = false → env.jsonManifest crdO = Except.ok mcrd →
      env.applyK opts.DryRun opts.Verbose nsName mcrd extraArgs = (soc, sec, none) →
      env.waitCRDs sorted opts.DryRun = none →
      env.jsonManifest restO = Except.ok mrest →
      env.applyK opts.DryRun opts.Verbose nsName mrest extraArgs = (sor, ser, some e) →
      applyManifest env c m v opts =
        (ComponentApplyOutput.mk ((("" ++ ("\n" ++ so)) ++ ("\n" ++ soc)) ++ ("\n" ++ sor))
            ((("" ++ ("\n" ++ se)) ++ ("\n" ++ sec)) ++ ("\n" ++ ser)) (some e)
            (env.yamlManifest ((nsO ++ crdO) ++ restO)), (nsO ++ crdO) ++ restO,
          [KubeCall.applyCall nsName mns extraArgs, KubeCall.waitResCall nsO,
           KubeCall.applyCall nsName mcrd extraArgs,
           KubeCall.waitCRDsCall sorted opts.DryRun,
           KubeCall.applyCall nsName mrest extraArgs])) := by
  have hunfold : applyManifest env c m v opts =
      applyManifestNsStage env opts nsName extraArgs sorted := by
    rw [applyManifest]
    rw [hparse]
    simp only [hne, Bool.false_eq_true, if_false]
    rw [hsorted, hnsName, hargs]
  refine ⟨?_, ?_, ?_, ?_, ?_, ?_, ?_, ?_⟩
  · intro e hnsne hjson
    rw [hunfold]
    simp [applyManifestNsStage, hnsO, hnsne, hjson, buildComponentApplyOutput]
  · intro mns so se e hnsne hjson happly
    rw [hunfold]
    simp [applyManifestNsStage, hnsO, hnsne, hjson, happly, buildComponentApplyOutput]
  · intro mns so se e hnsne hjson happly hwait
    rw [hunfold]
    simp [applyManifestNsStage, hnsO, hnsne, hjson, happly, hwait, buildComponentApplyOutput]
  · intro mns so se e hnsne hjson happly hwait hcrdne hjsonc
    rw [hunfold]
    simp [applyManifestNsStage, applyManifestCrdStage, hnsO, hcrdO, hnsne, hjson, happly,
      hwait, hcrdne, hjsonc, buildComponentApplyOutput]
  · intro mns so se mcrd soc sec e hnsne hjson happly hwait hcrdne hjsonc happlyc
    rw [hunfold]
    simp [applyManifestNsStage, applyManifestCrdStage, hnsO, hcrdO, hnsne, hjson, happly,
      hwait, hcrdne, hjsonc, happlyc, buildComponentApplyOutput]
  · intro mns so se mcrd soc sec e hnsne hjson happly hwait hcrdne hjsonc happlyc hwaitc
    rw [hunfold]
    simp [applyManifestNsStage, applyManifestCrdStage, hnsO, hcrdO, hnsne, hjson, happly,
      hwait, hcrdne, hjsonc, happlyc, hwaitc, buildComponentApplyOutput]
  · intro mns so se mcrd soc sec e hnsne hjson happly hwait hcrdne hjsonc happlyc hwaitc hjsonr
    rw [hunfold]
    simp [applyManifestNsStage, applyManifestCrdStage, applyManifestRestStage, hnsO, hcrdO,
      hrestO, hnsne, hjson, happly, hwait, hcrdne, hjsonc, happlyc, hwaitc, hjsonr,
      buildComponentApplyOutput]
  · intro mns so se mcrd soc sec mrest sor ser e hnsne hjson happly hwait hcrdne hjsonc
      happlyc hwaitc hjsonr happlyr
    rw [hunfold]
    simp [applyManifestNsStage, applyManifestCrdStage, applyManifestRestStage, hnsO, hcrdO,
      hrestO, hnsne, hjson, happly, hwait, hcrdne, hjsonc, happlyc, hwaitc, hjsonr, happlyr,
      buildComponentApplyOutput]

/-- C8 witness: a namespace-group serialization error stops the component
before any executor call, with the error captured in the outcome, an empty
applied list and no delegated calls. -/
theorem c8_step_error_capture_witness :
    applyManifest env8w "Pilot" "mm" "1.0" (InstallOptions.mk false false false) =
      (ComponentApplyOutput.mk "" "" (some "serr") "", [], []) := by
  exact (c8_step_error_capture env8w "Pilot" "mm" "1.0" (InstallOptions.mk false false false)
    [K8sObject.mk "" "Namespace" "istio-system" "istio-system" []]
    (labelObjects "Pilot" "1.0" [K8sObject.mk "" "Namespace" "istio-system" "istio-system" []])
    (nsKindObjects (labelObjects "Pilot" "1.0"
      [K8sObject.mk "" "Namespace" "istio-system" "istio-system" []]))
    (cRDKindObjects (labelObjects "Pilot" "1.0"
      [K8sObject.mk "" "Namespace" "istio-system" "istio-system" []]))
    (objectsNotInLists (labelObjects "Pilot" "1.0"
      [K8sObject.mk "" "Namespace" "istio-system" "istio-system" []])
      (nsKindObjects (labelObjects "Pilot" "1.0"
        [K8sObject.mk "" "Namespace" "istio-system" "istio-system" []]))
      (cRDKindObjects (labelObjects "Pilot" "1.0"
        [K8sObject.mk "" "Namespace" "istio-system" "istio-system" []])))
    "istio-system"
    (["--force"] ++ ["--prune", "--selector", istioComponentLabelStr ++ "=" ++ "Pilot"])
    rfl rfl rfl rfl rfl rfl rfl (by decide)).1 "serr" (by decide) rfl

/-! ## Scheduler helper lemmas: association lists -/

theorem lookupD_map_zero (cs : List ComponentName) (k : ComponentName) :
    lookupD (cs.map (fun c => (c, 0))) k = 0 := by
  induction cs with
  | nil => rfl
  | cons c rest ih =>
    by_cases h : c = k
    · simp [lookupD, h]
    · simp [lookupD, h, ih]

theorem setK_keys (l : List (ComponentName × Nat)) (k : ComponentName) (v : Nat) :
    (setK l k v).map Prod.fst = l.map Prod.fst := by
  induction l with
  | nil => rfl
  | cons p rest ih =>
    by_cases h : p.1 = k
    · simp only [setK, List.map_cons] at *
      rw [if_pos h]
      simp [h, ih]
    · simp only [setK, List.map_cons] at *
      rw [if_neg h]
      simp [ih]

theorem lookupD_setK_self (l : List (ComponentName × Nat)) (k : ComponentName) (v : Nat)
    (hk : k ∈ l.map Prod.fst) : lookupD (setK l k v) k = v := by
  induction l with
  | nil => simp at hk
  | cons p rest ih =>
    by_cases h : p.1 = k
    · simp only [setK, List.map_cons]
      rw [if_pos h]
      simp [lookupD, h]
    · have hk' : k ∈ rest.map Prod.fst := by
        rw [List.map_cons] at hk
        rcases List.mem_cons.mp hk with h1 | h1
        · exact absurd h1.symm h
        · exact h1
      simp only [setK, List.map_cons]
      rw [if_neg h]
      simp only [lookupD, if_neg h]
      simpa [setK] using ih hk'

theorem lookupD_setK_other (l : List (ComponentName × Nat)) (k k' : ComponentName) (v : Nat)
    (h : k' ≠ k) : lookupD (setK l k v) k' = lookupD l k' := by
  induction l with
  | nil => rfl
  | cons p rest ih =>
    by_cases hp : p.1 = k
    · have hp' : ¬ p.1 = k' := fun hq => h (by rw [← hq]; exact hp)
      simp only [setK, List.map_cons]
      rw [if_pos hp]
      simp only [lookupD]
      rw [if_neg hp', if_neg hp']
      simpa [setK] using ih
    · simp only [setK, List.map_cons]
      rw [if_neg hp]
      simp only [lookupD]
      by_cases hq : p.1 = k'
      · rw [if_pos hq, if_pos hq]
      · rw [if_neg hq, if_neg hq]
        simpa [setK] using ih

/-! ## Scheduler helper lemmas: traces and programs -/

theorem execTrace_append (tasks : List ComponentName) (t1 t2 : List Event) :
    ∀ s, execTrace tasks s (t1 ++ t2) =
      (execTrace tasks s t1).bind (fun s1 => execTrace tasks s1 t2) := by
  induction t1 with
  | nil => intro s; simp [execTrace]
  | cons e t ih =>
    intro s
    simp only [List.cons_append, execTrace]
    cases h : execEvent tasks s e with
    | none => simp
    | some s1 => simpa using ih s1

theorem childrenOf_eq (c : ComponentName) :
    childrenOf c = if c = IstioBaseComponentName then baseChildren else [] := by
  by_cases h : c = IstioBaseComponentName
  · simp [childrenOf, lookupDeps, componentDependencies, h]
  · simp [childrenOf, lookupDeps, componentDependencies, h, Ne.symm h]

theorem hasGate_iff (c : ComponentName) : hasGate c = true ↔ c ∈ baseChildren := by
  simp [hasGate, componentDependencies, List.any_cons]

theorem base_not_child : IstioBaseComponentName ∉ baseChildren := by decide

theorem base_not_gated : hasGate IstioBaseComponentName = false := by decide

theorem program_base :
    program IstioBaseComponentName = GoAction.applyStep :: baseChildren.map GoAction.signal := by
  rw [program, base_not_gated, childrenOf_eq, if_pos rfl]
  rfl

theorem program_gated (c : ComponentName) (h : c ∈ baseChildren) :
    program c = [GoAction.recv, GoAction.applyStep] := by
  have hne : c ≠ IstioBaseComponentName := fun hc => base_not_child (hc ▸ h)
  rw [program, childrenOf_eq, if_neg hne, if_pos ((hasGate_iff c).mpr h)]
  rfl

theorem signal_mem_program (c ch : ComponentName)
    (h : GoAction.signal ch ∈ program c) : ch ∈ childrenOf c := by
  rw [program] at h
  rcases List.mem_append.mp h with h1 | h1
  · rcases List.mem_append.mp h1 with h2 | h2
    · by_cases hg : hasGate c
      · rw [if_pos hg] at h2; simp at h2
      · rw [if_neg hg] at h2; simp at h2
    · simp at h2
  · rcases List.mem_map.mp h1 with ⟨x, hx, hfx⟩
    have : x = ch := by injection hfx
    exact this ▸ hx

theorem recv_mem_program (c : ComponentName) (h : GoAction.recv ∈ program c) :
    hasGate c = true := by
  by_cases hg : hasGate c
  · exact hg
  · exfalso
    rw [program, if_neg hg] at h
    rcases List.mem_append.mp h with h1 | h1
    · simp at h1
    · rcases List.mem_map.mp h1 with ⟨x, _, hfx⟩
      exact absurd hfx (by simp)

/-! ## Scheduler helper lemmas: counting -/

theorem eventsOf_append (c : ComponentName) (t : List Event) (e : Event) :
    eventsOf c (t ++ [e]) = eventsOf c t ++ (if e.c = c then [e.a] else []) := by
  by_cases h : e.c = c
  · simp [eventsOf, List.filter_append, h]
  · simp [eventsOf, List.filter_append, h]

theorem sigCount_append (t : List Event) (e : Event) (ch : ComponentName) :
    sigCount (t ++ [e]) ch = sigCount t ch + (if e.a = GoAction.signal ch then 1 else 0) := by
  by_cases h : e.a = GoAction.signal ch
  · simp [sigCount, List.countP_append, List.countP_cons, h]
  · simp [sigCount, List.countP_append, List.countP_cons, h]

theorem recvCount_append (t : List Event) (e : Event) (c : ComponentName) :
    recvCount (t ++ [e]) c = recvCount t c + (if e = Event.mk c GoAction.recv then 1 else 0) := by
  by_cases h : e = Event.mk c GoAction.recv
  · simp [recvCount, List.countP_append, List.countP_cons, h]
  · simp [recvCount, List.countP_append, List.countP_cons, h]

theorem mem_of_lookupD_ne_zero (l : List (ComponentName × Nat)) (k : ComponentName)
    (h : lookupD l k ≠ 0) : k ∈ l.map Prod.fst := by
  induction l with
  | nil => exact absurd rfl h
  | cons p rest ih =>
    by_cases hp : p.1 = k
    · exact List.mem_cons.mpr (Or.inl hp.symm)
    · rw [lookupD, if_neg hp] at h
      exact List.mem_cons.mpr (Or.inr (ih h))

theorem mem_eventsOf (c : ComponentName) (t : List Event) (a : GoAction) :
    a ∈ eventsOf c t ↔ ∃ e ∈ t, e.c = c ∧ e.a = a := by
  simp only [eventsOf, List.mem_map, List.mem_filter, decide_eq_true_eq]
  constructor
  · rintro ⟨e, ⟨he, hec⟩, hea⟩
    exact ⟨e, he, hec, hea⟩
  · rintro ⟨e, he, hec, hea⟩
    exact ⟨e, ⟨he, hec⟩, hea⟩

theorem event_index_of_mem (t : List Event) (e : Event) (h : e ∈ t) :
    ∃ i : Nat, i < t.length ∧ t[i]? = some e := by
  rcases List.getElem_of_mem h with ⟨i, hi, he⟩
  exact ⟨i, hi, by rw [List.getElem?_eq_getElem hi, he]⟩

theorem event_eta (e : Event) : Event.mk e.c e.a = e := rfl

/-- Inversion of one scheduler step: the goroutine is a launched task, the
event's action is its next program action, and the successor state is the
corresponding update with the corresponding guard. -/
theorem execEvent_inv (tasks : List ComponentName) (s : SchedState) (e : Event)
    (s' : SchedState) (h : execEvent tasks s e = some s') :
    e.c ∈ tasks ∧ (program e.c)[lookupD s.pc e.c]? = some e.a ∧
    ((e.a = GoAction.recv ∧ 0 < lookupD s.chan e.c ∧
        s' = SchedState.mk (setK s.pc e.c (lookupD s.pc e.c + 1))
          (setK s.chan e.c (lookupD s.chan e.c - 1))) ∨
     (e.a = GoAction.applyStep ∧
        s' = SchedState.mk (setK s.pc e.c (lookupD s.pc e.c + 1)) s.chan) ∨
     (∃ ch0, e.a = GoAction.signal ch0 ∧ lookupD s.chan ch0 < 1 ∧
        s' = SchedState.mk (setK s.pc e.c (lookupD s.pc e.c + 1))
          (setK s.chan ch0 (lookupD s.chan ch0 + 1)))) := by
  unfold execEvent at h
  by_cases hc : e.c ∈ tasks
  swap
  · rw [if_neg hc] at h; exact absurd h (by simp)
  rw [if_pos hc] at h
  refine ⟨hc, ?_⟩
  split at h
  · exact absurd h (by simp)
  · rename_i a ha
    split at h
    swap
    · exact absurd h (by simp)
    rename_i hae
    subst hae
    split at h
    · rename_i hrecv
      split at h
      · rename_i hguard
        exact ⟨ha, Or.inl ⟨hrecv, hguard, (Option.some.inj h).symm⟩⟩
      · exact absurd h (by simp)
    · rename_i happ
      exact ⟨ha, Or.inr (Or.inl ⟨happ, (Option.some.inj h).symm⟩)⟩
    · rename_i ch0 hsig
      split at h
      · rename_i hguard
        exact ⟨ha, Or.inr (Or.inr ⟨ch0, hsig, hguard, (Option.some.inj h).symm⟩)⟩
      · exact absurd h (by simp)

/-! ## The scheduler invariant -/

theorem schedInv_init (tasks : List ComponentName) : SchedInv tasks [] (initState tasks) := by
  refine ⟨?_, ?_, ?_, ?_, ?_, ?_⟩
  · intro e he; simp at he
  · show (tasks.map (fun c => (c, 0))).map Prod.fst = tasks
    rw [List.map_map]
    exact List.map_id tasks
  · show (gateChildren.map (fun c => (c, 0))).map Prod.fst = gateChildren
    rw [List.map_map]
    exact List.map_id gateChildren
  · intro c; simp [eventsOf, initState, lookupD_map_zero]
  · intro c; simp [initState, lookupD_map_zero]
  · intro ch; simp [initState, lookupD_map_zero, recvCount, sigCount]

theorem schedInv_step (tasks : List ComponentName)
    (t : List Event) (s : SchedState) (e : Event) (s' : SchedState)
    (hInv : SchedInv tasks t s) (hstep : execEvent tasks s e = some s') :
    SchedInv tasks (t ++ [e]) s' := by
  obtain ⟨hin, hpck, hchk, hev, hle, hch⟩ := hInv
  obtain ⟨hc, ha, hcase⟩ := execEvent_inv tasks s e s' hstep
  have hcmem : e.c ∈ s.pc.map Prod.fst := by rw [hpck]; exact hc
  have hlt : lookupD s.pc e.c < (program e.c).length := (List.getElem?_eq_some.mp ha).1
  have hin' : ∀ e' ∈ t ++ [e], e'.c ∈ tasks := by
    intro e' he'
    rcases List.mem_append.mp he' with h1 | h1
    · exact hin e' h1
    · rw [List.mem_singleton.mp h1]; exact hc
  have htake : ∀ c, eventsOf c (t ++ [e]) =
      (program c).take (lookupD (setK s.pc e.c (lookupD s.pc e.c + 1)) c) := by
    intro c
    by_cases hcc : c = e.c
    · subst hcc
      rw [eventsOf_append, if_pos rfl, hev e.c,
        lookupD_setK_self s.pc e.c (lookupD s.pc e.c + 1) hcmem, List.take_succ, ha]
      rfl
    · rw [eventsOf_append, if_neg (fun hh => hcc hh.symm),
        lookupD_setK_other s.pc e.c c _ hcc, hev c, List.append_nil]
  have hle' : ∀ c, lookupD (setK s.pc e.c (lookupD s.pc e.c + 1)) c ≤ (program c).length := by
    intro c
    by_cases hcc : c = e.c
    · subst hcc
      rw [lookupD_setK_self s.pc e.c (lookupD s.pc e.c + 1) hcmem]
      exact hlt
    · rw [lookupD_setK_other s.pc e.c c _ hcc]
      exact hle c
  have hpck' : (setK s.pc e.c (lookupD s.pc e.c + 1)).map Prod.fst = tasks := by
    rw [setK_keys]; exact hpck
  rcases hcase with ⟨hea, hguard, hs'⟩ | ⟨hea, hs'⟩ | ⟨ch0, hea, hguard, hs'⟩
  · subst hs'
    have heve : e = Event.mk e.c GoAction.recv := by rw [← event_eta e, hea]
    refine ⟨hin', hpck', by rw [setK_keys]; exact hchk, htake, hle', ?_⟩
    intro ch
    by_cases hcc : ch = e.c
    · subst hcc
      have hkey : e.c ∈ s.chan.map Prod.fst :=
        mem_of_lookupD_ne_zero s.chan e.c (Nat.pos_iff_ne_zero.mp hguard)
      have h1 : e = Event.mk e.c GoAction.recv := heve
      have h2 : ¬ e.a = GoAction.signal e.c := by rw [hea]; simp
      rw [sigCount_append, recvCount_append, if_pos h1, if_neg h2,
        lookupD_setK_self s.chan e.c _ hkey]
      have hbal := hch e.c
      omega
    · have h1 : ¬ e = Event.mk ch GoAction.recv := by
        intro hh; rw [heve] at hh; injection hh with hx hy; exact hcc hx.symm
      have h2 : ¬ e.a = GoAction.signal ch := by rw [hea]; simp
      rw [sigCount_append, recvCount_append, if_neg h1, if_neg h2,
        lookupD_setK_other s.chan e.c ch _ hcc]
      have hbal := hch ch
      omega
  · subst hs'
    refine ⟨hin', hpck', hchk, htake, hle', ?_⟩
    intro ch
    change lookupD s.chan ch + recvCount (t ++ [e]) ch = sigCount (t ++ [e]) ch
    have h1 : ¬ e = Event.mk ch GoAction.recv := by
      intro hh; rw [hh] at hea; simp at hea
    have h2 : ¬ e.a = GoAction.signal ch := by rw [hea]; simp
    rw [sigCount_append, recvCount_append, if_neg h1, if_neg h2]
    have hbal := hch ch
    omega
  · subst hs'
    have hmemsig : GoAction.signal ch0 ∈ program e.c := by
      rcases List.getElem?_eq_some.mp (hea ▸ ha) with ⟨hl, hg⟩
      exact hg ▸ List.getElem_mem hl
    have hchild : ch0 ∈ childrenOf e.c := signal_mem_program e.c ch0 hmemsig
    have hch0gate : ch0 ∈ baseChildren := by
      rw [childrenOf_eq] at hchild
      by_cases hb : e.c = IstioBaseComponentName
      · rw [if_pos hb] at hchild; exact hchild
      · rw [if_neg hb] at hchild; simp at hchild
    have hkey : ch0 ∈ s.chan.map Prod.fst := by
      rw [hchk]; exact hch0gate
    refine ⟨hin', hpck', by rw [setK_keys]; exact hchk, htake, hle', ?_⟩
    intro ch
    by_cases hcc : ch = ch0
    · subst hcc
      have h1 : ¬ e = Event.mk ch GoAction.recv := by
        intro hh; rw [hh] at hea; simp at hea
      have h2 : e.a = GoAction.signal ch := hea
      rw [sigCount_append, recvCount_append, if_neg h1, if_pos h2,
        lookupD_setK_self s.chan ch _ hkey]
      have hbal := hch ch
      omega
    · have h1 : ¬ e = Event.mk ch GoAction.recv := by
        intro hh; rw [hh] at hea; simp at hea
      have h2 : ¬ e.a = GoAction.signal ch := by
        rw [hea]; intro hh; injection hh with hx; exact hcc hx.symm
      rw [sigCount_append, recvCount_append, if_neg h1, if_neg h2,
        lookupD_setK_other s.chan ch0 ch _ hcc]
      have hbal := hch ch
      omega

theorem execTrace_singleton (tasks : List ComponentName) (s : SchedState) (e : Event) :
    execTrace tasks s [e] = execEvent tasks s e := by
  rw [execTrace]
  cases hx : execEvent tasks s e with
  | none => rfl
  | some s2 => rfl

theorem schedInv_holds (tasks : List ComponentName) (t : List Event) (s : SchedState)
    (h : execTrace tasks (initState tasks) t = some s) : SchedInv tasks t s := by
  induction t using List.reverseRecOn generalizing s with
  | nil =>
    rw [execTrace] at h
    rw [← Option.some.inj h]
    exact schedInv_init tasks
  | append_singleton t e ih =>
    rw [execTrace_append] at h
    cases hmid : execTrace tasks (initState tasks) t with
    | none => rw [hmid] at h; exact absurd h (by simp)
    | some s1 =>
      rw [hmid] at h
      simp only [Option.some_bind] at h
      rw [execTrace_singleton] at h
      exact schedInv_step tasks t s1 e s (ih s1 hmid) h

theorem orderingProps_holds (tasks : List ComponentName) (t : List Event) (s : SchedState)
    (h : execTrace tasks (initState tasks) t = some s) : OrderingProps t := by
  induction t using List.reverseRecOn generalizing s with
  | nil =>
    refine ⟨?_, ?_, ?_⟩
    · intro i c _ hi; simp at hi
    · intro i c hi; simp at hi
    · intro i p ch hi; simp at hi
  | append_singleton t e ih =>
    rw [execTrace_append] at h
    cases hmid : execTrace tasks (initState tasks) t with
    | none => rw [hmid] at h; exact absurd h (by simp)
    | some s1 =>
      rw [hmid] at h
      simp only [Option.some_bind] at h
      rw [execTrace_singleton] at h
      obtain ⟨hOP1, hOP2, hOP3⟩ := ih s1 hmid
      obtain ⟨hin, hpck, hchk, hev, hle, hch⟩ := schedInv_holds tasks t s1 hmid
      obtain ⟨hc, ha, hcase⟩ := execEvent_inv tasks s1 e s h
      have hlift : ∀ (j : Nat) (x : Event), j < t.length → t[j]? = some x →
          (t ++ [e])[j]? = some x := by
        intro j x hj hx
        rw [List.getElem?_append_left hj]; exact hx
      have hnewi : ∀ (i : Nat) (x : Event), ¬ i < t.length →
          (t ++ [e])[i]? = some x → i = t.length ∧ e = x := by
        intro i x hlt hi
        have hb : i < (t ++ [e]).length := (List.getElem?_eq_some.mp hi).1
        rw [List.length_append, List.length_singleton] at hb
        have hieq : i = t.length := by omega
        subst hieq
        rw [List.getElem?_concat_length] at hi
        exact ⟨rfl, Option.some.inj hi⟩
      refine ⟨?_, ?_, ?_⟩
      · intro i c hgc hi
        by_cases hio : i < t.length
        · rw [List.getElem?_append_left hio] at hi
          obtain ⟨j, hj, hjx⟩ := hOP1 i c hgc hi
          exact ⟨j, hj, hlift j _ (by omega) hjx⟩
        · obtain ⟨hieq, hex⟩ := hnewi i _ hio hi
          have hec : e.c = c := by rw [hex]
          have hea : e.a = GoAction.applyStep := by rw [hex]
          have hcb : c ∈ baseChildren := (hasGate_iff c).mp hgc
          have ha' : (program c)[lookupD s1.pc c]? = some GoAction.applyStep := by
            rw [← hec, ← hea]; exact ha
          have hpc : lookupD s1.pc c = 1 := by
            rw [program_gated c hcb] at ha'
            rcases hv : lookupD s1.pc c with _ | n
            · rw [hv] at ha'; simp at ha'
            · rcases n with _ | m
              · rfl
              · rw [hv] at ha'; simp at ha'
          have hrecvmem : GoAction.recv ∈ eventsOf c t := by
            rw [hev c, hpc, program_gated c hcb]
            simp
          obtain ⟨e', he't, he'c, he'a⟩ := (mem_eventsOf c t GoAction.recv).mp hrecvmem
          have he' : e' = Event.mk c GoAction.recv := by
            rw [← event_eta e', he'c, he'a]
          obtain ⟨j, hj, hjx⟩ := event_index_of_mem t e' he't
          exact ⟨j, by omega, hlift j _ hj (he' ▸ hjx)⟩
      · intro i c hi
        by_cases hio : i < t.length
        · rw [List.getElem?_append_left hio] at hi
          obtain ⟨j, p, hj, hjx⟩ := hOP2 i c hi
          exact ⟨j, p, hj, hlift j _ (by omega) hjx⟩
        · obtain ⟨hieq, hex⟩ := hnewi i _ hio hi
          have hec : e.c = c := by rw [hex]
          have heaR : e.a = GoAction.recv := by rw [hex]
          have hguard : 0 < lookupD s1.chan e.c := by
            rcases hcase with ⟨_, hg, _⟩ | ⟨hg, _⟩ | ⟨ch0, hg, _, _⟩
            · exact hg
            · rw [heaR] at hg; exact absurd hg (by simp)
            · rw [heaR] at hg; exact absurd hg (by simp)
          have hsig : 0 < sigCount t c := by
            have := hch c
            rw [hec] at hguard
            omega
          rw [sigCount] at hsig
          obtain ⟨e', he't, he'p⟩ := List.countP_pos_iff.mp hsig
          have he'a : e'.a = GoAction.signal c := of_decide_eq_true he'p
          have he' : e' = Event.mk e'.c (GoAction.signal c) := by
            rw [← event_eta e', he'a]
          obtain ⟨j, hj, hjx⟩ := event_index_of_mem t e' he't
          exact ⟨j, e'.c, by omega, hlift j _ hj (he' ▸ hjx)⟩
      · intro i p ch hi
        by_cases hio : i < t.length
        · rw [List.getElem?_append_left hio] at hi
          obtain ⟨hp, k, hk, hkx⟩ := hOP3 i p ch hi
          exact ⟨hp, k, hk, hlift k _ (by omega) hkx⟩
        · obtain ⟨hieq, hex⟩ := hnewi i _ hio hi
          have hec : e.c = p := by rw [hex]
          have heaS : e.a = GoAction.signal ch := by rw [hex]
          rw [hec, heaS] at ha
          have hmemsig : GoAction.signal ch ∈ program p := by
            rcases List.getElem?_eq_some.mp ha with ⟨hl, hg⟩
            exact hg ▸ List.getElem_mem hl
          have hchild : ch ∈ childrenOf p := signal_mem_program p ch hmemsig
          have hpb : p = IstioBaseComponentName := by
            by_contra hb
            rw [childrenOf_eq, if_neg hb] at hchild
            simp at hchild
          have hpc : 1 ≤ lookupD s1.pc p := by
            by_contra hz
            have hz0 : lookupD s1.pc p = 0 := by omega
            rw [hpb, program_base] at ha
            rw [hpb] at hz0
            rw [hz0] at ha
            simp at ha
          have happmem : GoAction.applyStep ∈ eventsOf p t := by
            rw [hev p]
            rcases hv : lookupD s1.pc p with _ | n
            · omega
            · rw [hpb, program_base]
              simp
          obtain ⟨e', he't, he'c, he'a⟩ := (mem_eventsOf p t GoAction.applyStep).mp happmem
          have he' : e' = Event.mk p GoAction.applyStep := by
            rw [← event_eta e', he'c, he'a]
          obtain ⟨k, hk, hkx⟩ := event_index_of_mem t e' he't
          exact ⟨hpb, k, by omega, hlift k _ hk (he' ▸ hkx)⟩

theorem sum_map_add (l : List ComponentName) (f g : ComponentName → Nat) :
    (l.map (fun p => f p + g p)).sum = (l.map f).sum + (l.map g).sum := by
  induction l with
  | nil => rfl
  | cons a l ih =>
    simp only [List.map_cons, List.sum_cons, ih]
    omega

theorem sum_map_indicator (l : List ComponentName) (c : ComponentName) (k : Nat)
    (hnd : l.Nodup) (hc : c ∈ l) :
    (l.map (fun p => if p = c then k else 0)).sum = k := by
  induction l with
  | nil => simp at hc
  | cons a l ih =>
    rcases List.mem_cons.mp hc with h | h
    · simp only [List.map_cons, List.sum_cons, if_pos h.symm]
      have hz : (l.map (fun p => if p = c then k else 0)).sum = 0 := by
        apply List.sum_eq_zero
        intro x hx
        rcases List.mem_map.mp hx with ⟨p, hp, he⟩
        rw [← he]
        rw [if_neg ?_]
        intro hpc
        apply (List.nodup_cons.mp hnd).1
        rw [← h, ← hpc]
        exact hp
      omega
    · have hne : ¬ a = c := fun he => (List.nodup_cons.mp hnd).1 (he ▸ h)
      simp only [List.map_cons, List.sum_cons, if_neg hne,
        ih (List.nodup_cons.mp hnd).2 h]
      omega

/-- Counting events by which goroutine produced them: when every event
belongs to a launched (distinct) task, a total event count splits into the
per-task counts. -/
theorem countP_by_components (tasks : List ComponentName) (t : List Event)
    (hin : ∀ e ∈ t, e.c ∈ tasks) (hnd : tasks.Nodup) (q : Event → Bool) :
    t.countP q =
      (tasks.map (fun p => t.countP (fun e => decide (e.c = p) && q e))).sum := by
  induction t with
  | nil => simp
  | cons e t' ih =>
    have hin' : ∀ x ∈ t', x.c ∈ tasks := fun x hx => hin x (List.mem_cons_of_mem e hx)
    have hrw : ∀ p : ComponentName,
        (e :: t').countP (fun x => decide (x.c = p) && q x) =
          t'.countP (fun x => decide (x.c = p) && q x) +
            (if p = e.c then (if q e then 1 else 0) else 0) := by
      intro p
      rw [List.countP_cons]
      by_cases hp : p = e.c
      · by_cases hq : q e
        · rw [if_pos hp, if_pos hq]
          have : (decide (e.c = p) && q e) = true := by
            rw [hp] at *
            simp [hq]
          rw [if_pos this]
        · rw [if_pos hp, if_neg hq]
          have : ¬ (decide (e.c = p) && q e) = true := by
            simp [hq]
          rw [if_neg this]
      · have : ¬ (decide (e.c = p) && q e) = true := by
          simp
          intro hcc
          exact absurd hcc.symm hp
        rw [if_neg this, if_neg hp]
    have hmap : (tasks.map (fun p => (e :: t').countP (fun x => decide (x.c = p) && q x))) =
        tasks.map (fun p => t'.countP (fun x => decide (x.c = p) && q x) +
          (if p = e.c then (if q e then 1 else 0) else 0)) := by
      apply List.map_congr_left
      intro p _
      exact hrw p
    rw [List.countP_cons, ih hin', hmap, sum_map_add,
      sum_map_indicator tasks e.c (if q e then 1 else 0) hnd (hin e (List.mem_cons_self e t'))]

/-- A task's contribution to a signal count is the signal count of its own
performed actions. -/
theorem countP_signal_by_component (p c : ComponentName) (t : List Event) :
    t.countP (fun e => decide (e.c = p) && decide (e.a = GoAction.signal c)) =
      (eventsOf p t).countP (fun a => decide (a = GoAction.signal c)) := by
  rw [eventsOf, List.countP_map, List.countP_filter]
  apply List.countP_congr
  intro e _
  simp [Function.comp, Bool.and_comm]

/-- Signal occurrences inside one goroutine's whole program: only the base
component signals, once per declared child occurrence. -/
theorem countP_signal_program (p c : ComponentName) :
    (program p).countP (fun a => decide (a = GoAction.signal c)) =
      if p = IstioBaseComponentName then
        baseChildren.countP (fun x => decide (x = c)) else 0 := by
  by_cases hb : p = IstioBaseComponentName
  · subst hb
    rw [program_base, if_pos rfl, List.countP_cons, List.countP_map]
    have : ((fun a => decide (a = GoAction.signal c)) ∘ GoAction.signal) =
        fun x => decide (x = c) := by
      funext x
      simp [Function.comp]
    rw [this]
    simp
  · rw [if_neg hb, program, childrenOf_eq, if_neg hb]
    by_cases hg : hasGate p
    · rw [if_pos hg]
      simp [List.countP_cons]
    · rw [if_neg hg]
      simp [List.countP_cons]

/-- Each declared child occurs exactly once in the declaration list. -/
theorem baseChildren_countP_one :
    ∀ c ∈ baseChildren, baseChildren.countP (fun x => decide (x = c)) = 1 := by
  decide

/-! ## Theorems for C2 -/

/-- C2: in every reachable interleaving of the per-component goroutines of
`applyRecursive` (each one: optionally receive its gate, run its apply,
then signal every declared child — unconditionally, so a failed apply does
not suppress signalling): (1) a declared child's apply event is strictly
preceded by its parent's signal to that child, itself strictly preceded by
the parent's apply event — the apply-and-wait call having returned, since
it is a synchronous call modelled as one atomic event; and (2) in every
complete run (all goroutines finished, i.e. `wg.Wait` returned), the gate
of every declared child of a launched parent is signalled exactly once. -/
theorem c2_dependency_gate (tasks : List ComponentName) (t : List Event) (s : SchedState)
    (hnd : tasks.Nodup)
    (hrun : execTrace tasks (initState tasks) t = some s) :
    (∀ (p c : ComponentName) (i : Nat), p ∈ tasks → c ∈ childrenOf p →
      t[i]? = some (Event.mk c GoAction.applyStep) →
      ∃ (k j : Nat), k < j ∧ j < i ∧ t[k]? = some (Event.mk p GoAction.applyStep) ∧
        t[j]? = some (Event.mk p (GoAction.signal c))) ∧
    (CompleteState tasks s → ∀ (p c : ComponentName), p ∈ tasks → c ∈ childrenOf p →
      t.countP (fun e => decide (e.a = GoAction.signal c)) = 1) := by
  obtain ⟨hOP1, hOP2, hOP3⟩ := orderingProps_holds tasks t s hrun
  obtain ⟨hin, hpck, hchk, hev, hle, hch⟩ := schedInv_holds tasks t s hrun
  constructor
  · intro p c i hp hcp hi
    have hpb : p = IstioBaseComponentName := by
      by_contra hb
      rw [childrenOf_eq, if_neg hb] at hcp
      simp at hcp
    have hcb : c ∈ baseChildren := by
      rw [childrenOf_eq, if_pos hpb] at hcp
      exact hcp
    have hgc : hasGate c = true := (hasGate_iff c).mpr hcb
    obtain ⟨j', hj', hj'x⟩ := hOP1 i c hgc hi
    obtain ⟨j, p', hj, hjx⟩ := hOP2 j' c hj'x
    obtain ⟨hp'b, k, hk, hkx⟩ := hOP3 j p' c hjx
    refine ⟨k, j, hk, by omega, ?_, ?_⟩
    · rw [hpb, ← hp'b]
      exact hkx
    · rw [hpb, ← hp'b]
      exact hjx
  · intro hcomp p c hp hcp
    have hpb : p = IstioBaseComponentName := by
      by_contra hb
      rw [childrenOf_eq, if_neg hb] at hcp
      simp at hcp
    have hcb : c ∈ baseChildren := by
      rw [childrenOf_eq, if_pos hpb] at hcp
      exact hcp
    rw [countP_by_components tasks t hin hnd (fun e => decide (e.a = GoAction.signal c))]
    have hterm : ∀ p' ∈ tasks,
        t.countP (fun e => decide (e.c = p') && decide (e.a = GoAction.signal c)) =
          (if p' = IstioBaseComponentName then 1 else 0) := by
      intro p' hp'
      rw [countP_signal_by_component, hev p', hcomp p' hp', List.take_length,
        countP_signal_program]
      by_cases hb : p' = IstioBaseComponentName
      · rw [if_pos hb, if_pos hb, baseChildren_countP_one c hcb]
      · rw [if_neg hb, if_neg hb]
    rw [List.map_congr_left hterm,
      sum_map_indicator tasks IstioBaseComponentName 1 hnd (hpb ▸ hp)]

/-! ## Progress and completion of the scheduler -/

/-- A task's receives are the receive actions it has performed. -/
theorem countP_action_by_component (p : ComponentName) (q : GoAction → Bool) (t : List Event) :
    t.countP (fun e => decide (e.c = p) && q e.a) = (eventsOf p t).countP q := by
  rw [eventsOf, List.countP_map, List.countP_filter]
  apply List.countP_congr
  intro e _
  simp [Function.comp, Bool.and_comm]

theorem recvCount_eq (c : ComponentName) (t : List Event) :
    recvCount t c = (eventsOf c t).countP (fun a => decide (a = GoAction.recv)) := by
  rw [recvCount, ← countP_action_by_component]
  apply List.countP_congr
  intro e _
  cases e with
  | mk c0 a0 => simp [Event.mk.injEq, Bool.and_comm]

/-- The base component's program consists of its apply followed by
signals. -/
theorem program_base_shape (a : GoAction) (h : a ∈ program IstioBaseComponentName) :
    a = GoAction.applyStep ∨ ∃ ch, a = GoAction.signal ch := by
  rw [program_base] at h
  rcases List.mem_cons.mp h with h1 | h1
  · exact Or.inl h1
  · rcases List.mem_map.mp h1 with ⟨x, _, hfx⟩
    exact Or.inr ⟨x, hfx.symm⟩

/-- A gated component's receive sits at position zero of its program. -/
theorem recv_position (c : ComponentName) (n : Nat) (hg : c ∈ baseChildren)
    (h : (program c)[n]? = some GoAction.recv) : n = 0 := by
  rw [program_gated c hg] at h
  rcases n with _ | m
  · rfl
  · rcases m with _ | k
    · simp at h
    · simp at h

/-- When a goroutine stands at a send, that signal has not been sent yet in
the whole run (each gate is signalled at most once, and its unique send
position is still ahead). -/
theorem sigCount_zero_at_signal (tasks : List ComponentName) (t : List Event) (s : SchedState)
    (hrun : execTrace tasks (initState tasks) t = some s)
    (c ch : ComponentName) (ha : (program c)[lookupD s.pc c]? = some (GoAction.signal ch)) :
    sigCount t ch = 0 := by
  obtain ⟨hin, hpck, hchk, hev, hle, hch⟩ := schedInv_holds tasks t s hrun
  have hmemsig : GoAction.signal ch ∈ program c := by
    rcases List.getElem?_eq_some.mp ha with ⟨hl, hg⟩
    exact hg ▸ List.getElem_mem hl
  have hchild : ch ∈ childrenOf c := signal_mem_program c ch hmemsig
  have hcb : c = IstioBaseComponentName := by
    by_contra hb
    rw [childrenOf_eq, if_neg hb] at hchild
    simp at hchild
  have hchb : ch ∈ baseChildren := by
    rw [childrenOf_eq, if_pos hcb] at hchild
    exact hchild
  rw [sigCount, List.countP_eq_zero]
  intro e' he' hp'
  have he'a : e'.a = GoAction.signal ch := of_decide_eq_true hp'
  have hmem' : GoAction.signal ch ∈ eventsOf e'.c t :=
    (mem_eventsOf e'.c t _).mpr ⟨e', he', rfl, he'a⟩
  rw [hev e'.c] at hmem'
  by_cases hbc : e'.c = c
  · -- the sender would be the base component itself, but the unique send
    -- position is exactly where it still stands
    rw [hbc] at hmem'
    have hlt : lookupD s.pc c < (program c).length := (List.getElem?_eq_some.mp ha).1
    have htot : (program c).countP (fun a => decide (a = GoAction.signal ch)) = 1 := by
      rw [countP_signal_program, if_pos hcb]
      exact baseChildren_countP_one ch hchb
    have hdrop : (program c).drop (lookupD s.pc c) =
        GoAction.signal ch :: (program c).drop (lookupD s.pc c + 1) := by
      rw [List.drop_eq_getElem_cons hlt]
      rcases List.getElem?_eq_some.mp ha with ⟨hl, hg⟩
      rw [hg]
    have hsplit : ((program c).take (lookupD s.pc c)).countP
          (fun a => decide (a = GoAction.signal ch)) +
        ((program c).drop (lookupD s.pc c)).countP
          (fun a => decide (a = GoAction.signal ch)) = 1 := by
      rw [← List.countP_append, List.take_append_drop]
      exact htot
    have hdropge : 0 < ((program c).drop (lookupD s.pc c)).countP
        (fun a => decide (a = GoAction.signal ch)) := by
      rw [hdrop]
      exact List.countP_pos_iff.mpr ⟨GoAction.signal ch, List.mem_cons_self _ _, by simp⟩
    have htake0 : ((program c).take (lookupD s.pc c)).countP
        (fun a => decide (a = GoAction.signal ch)) = 0 := by omega
    have hnot := List.countP_eq_zero.mp htake0 _ hmem'
    simp at hnot
  · -- only the base component's program contains this signal
    have hmem'' : GoAction.signal ch ∈ program e'.c :=
      (List.take_sublist _ _).subset hmem'
    have hchild' : ch ∈ childrenOf e'.c := signal_mem_program e'.c ch hmem''
    rw [childrenOf_eq, if_neg (fun hx => hbc (hx.trans hcb.symm))] at hchild'
    simp at hchild'

/-- From any reachable incomplete state some goroutine can take a step:
unfinished appliers and signallers are never blocked (each gate is
signalled at most once, so sends never find a full channel), and a blocked
receiver forces the base component either to still have an enabled step or
to have already filled the receiver's gate. -/
theorem sched_progress (tasks : List ComponentName)
    (hbase : (∃ c ∈ tasks, hasGate c = true) → IstioBaseComponentName ∈ tasks)
    (t : List Event) (s : SchedState)
    (hrun : execTrace tasks (initState tasks) t = some s)
    (hnc : ¬ CompleteState tasks s) :
    ∃ e s1, execEvent tasks s e = some s1 := by
  obtain ⟨hin, hpck, hchk, hev, hle, hch⟩ := schedInv_holds tasks t s hrun
  have enabApply : ∀ c ∈ tasks, (program c)[lookupD s.pc c]? = some GoAction.applyStep →
      ∃ e s1, execEvent tasks s e = some s1 := by
    intro c hc ha
    exact ⟨Event.mk c GoAction.applyStep,
      SchedState.mk (setK s.pc c (lookupD s.pc c + 1)) s.chan,
      by simp [execEvent, hc, ha]⟩
  have enabSignal : ∀ c ∈ tasks, ∀ ch,
      (program c)[lookupD s.pc c]? = some (GoAction.signal ch) →
      ∃ e s1, execEvent tasks s e = some s1 := by
    intro c hc ch ha
    have hz : sigCount t ch = 0 := sigCount_zero_at_signal tasks t s hrun c ch ha
    have hchan : lookupD s.chan ch < 1 := by
      have := hch ch
      omega
    exact ⟨Event.mk c (GoAction.signal ch),
      SchedState.mk (setK s.pc c (lookupD s.pc c + 1)) (setK s.chan ch (lookupD s.chan ch + 1)),
      by simp [execEvent, hc, ha, hchan]⟩
  rw [CompleteState] at hnc
  push_neg at hnc
  obtain ⟨c, hc, hne⟩ := hnc
  have hlt : lookupD s.pc c < (program c).length := lt_of_le_of_ne (hle c) hne
  have ha : (program c)[lookupD s.pc c]? =
      some ((program c).get (Fin.mk (lookupD s.pc c) hlt)) := by
    rw [List.getElem?_eq_getElem hlt, List.get_eq_getElem]
  cases hval : (program c).get (Fin.mk (lookupD s.pc c) hlt) with
  | applyStep => exact enabApply c hc (by rw [ha, hval])
  | signal ch => exact enabSignal c hc ch (by rw [ha, hval])
  | recv =>
    have ha' : (program c)[lookupD s.pc c]? = some GoAction.recv := by rw [ha, hval]
    have hmem : GoAction.recv ∈ program c := by
      rcases List.getElem?_eq_some.mp ha' with ⟨hl, hg⟩
      exact hg ▸ List.getElem_mem hl
    have hgc : hasGate c = true := recv_mem_program c hmem
    have hcb : c ∈ baseChildren := (hasGate_iff c).mp hgc
    by_cases hch0 : 0 < lookupD s.chan c
    · exact ⟨Event.mk c GoAction.recv,
        SchedState.mk (setK s.pc c (lookupD s.pc c + 1)) (setK s.chan c (lookupD s.chan c - 1)),
        by simp [execEvent, hc, ha', hch0]⟩
    · have hBase : IstioBaseComponentName ∈ tasks := hbase ⟨c, hc, hgc⟩
      by_cases hBfin : lookupD s.pc IstioBaseComponentName =
          (program IstioBaseComponentName).length
      · exfalso
        have hevB : eventsOf IstioBaseComponentName t = program IstioBaseComponentName := by
          rw [hev _, hBfin, List.take_length]
        have hsig1 : 0 < sigCount t c := by
          have hmemsig : GoAction.signal c ∈ eventsOf IstioBaseComponentName t := by
            rw [hevB, program_base]
            exact List.mem_cons_of_mem _ (List.mem_map.mpr ⟨c, hcb, rfl⟩)
          obtain ⟨e', he't, _, he'a⟩ := (mem_eventsOf _ t _).mp hmemsig
          exact List.countP_pos_iff.mpr ⟨e', he't, by rw [he'a]; simp⟩
        have hrecv0 : recvCount t c = 0 := by
          rw [recvCount_eq, hev c, recv_position c _ hcb ha']
          rfl
        have := hch c
        omega
      · have hltB : lookupD s.pc IstioBaseComponentName <
            (program IstioBaseComponentName).length := lt_of_le_of_ne (hle _) hBfin
        have haB : (program IstioBaseComponentName)[lookupD s.pc IstioBaseComponentName]? =
            some ((program IstioBaseComponentName).get
              (Fin.mk (lookupD s.pc IstioBaseComponentName) hltB)) := by
          rw [List.getElem?_eq_getElem hltB, List.get_eq_getElem]
        have hmemB : (program IstioBaseComponentName).get
            (Fin.mk (lookupD s.pc IstioBaseComponentName) hltB) ∈
            program IstioBaseComponentName := List.get_mem _ _ hltB
        rcases program_base_shape _ hmemB with hap | ⟨ch', hsg⟩
        · exact enabApply _ hBase (by rw [haB, hap])
        · exact enabSignal _ hBase ch' (by rw [haB, hsg])

theorem sum_map_update_sub (l : List ComponentName) (c : ComponentName)
    (f g : ComponentName → Nat) (hnd : l.Nodup) (hc : c ∈ l)
    (hother : ∀ x ∈ l, x ≠ c → g x = f x) (hat : g c + 1 = f c) :
    (l.map g).sum + 1 = (l.map f).sum := by
  induction l with
  | nil => simp at hc
  | cons a l ih =>
    rcases List.mem_cons.mp hc with h | h
    · have hz : l.map g = l.map f := by
        apply List.map_congr_left
        intro x hx
        apply hother x (List.mem_cons_of_mem _ hx)
        intro hxc
        exact (List.nodup_cons.mp hnd).1 (h ▸ hxc ▸ hx)
      simp only [List.map_cons, List.sum_cons, hz]
      have hga : g a + 1 = f a := by rw [← h]; exact hat
      omega
    · have hac : a ≠ c := fun hac => (List.nodup_cons.mp hnd).1 (hac ▸ h)
      have hga : g a = f a := hother a (List.mem_cons_self a l) hac
      simp only [List.map_cons, List.sum_cons, hga]
      have := ih (List.nodup_cons.mp hnd).2 h
        (fun x hx hxc => hother x (List.mem_cons_of_mem _ hx) hxc)
      omega

/-- Every scheduler step decreases the number of outstanding program steps
by exactly one. -/
theorem remainingSteps_decrease (tasks : List ComponentName) (hnd : tasks.Nodup)
    (t : List Event) (s : SchedState) (e : Event) (s1 : SchedState)
    (hrun : execTrace tasks (initState tasks) t = some s)
    (hstep : execEvent tasks s e = some s1) :
    remainingSteps tasks s1 + 1 = remainingSteps tasks s := by
  obtain ⟨hin, hpck, hchk, hev, hle, hch⟩ := schedInv_holds tasks t s hrun
  obtain ⟨hc, ha, hcase⟩ := execEvent_inv tasks s e s1 hstep
  have hlt : lookupD s.pc e.c < (program e.c).length := (List.getElem?_eq_some.mp ha).1
  have hcmem : e.c ∈ s.pc.map Prod.fst := by rw [hpck]; exact hc
  have hpc1 : s1.pc = setK s.pc e.c (lookupD s.pc e.c + 1) := by
    rcases hcase with ⟨_, _, h⟩ | ⟨_, h⟩ | ⟨_, _, _, h⟩ <;> rw [h]
  rw [remainingSteps, remainingSteps, hpc1]
  apply sum_map_update_sub tasks e.c _ _ hnd hc
  · intro x _ hxc
    rw [lookupD_setK_other s.pc e.c x _ hxc]
  · rw [lookupD_setK_self s.pc e.c _ hcmem]
    omega

/-- Whenever the base component is present (or no launched component is
gated), the scheduler can run all goroutines to completion: `wg.Wait`
returns. -/
theorem sched_completion (tasks : List ComponentName) (hnd : tasks.Nodup)
    (hbase : (∃ c ∈ tasks, hasGate c = true) → IstioBaseComponentName ∈ tasks) :
    ∃ (t : List Event) (s : SchedState),
      execTrace tasks (initState tasks) t = some s ∧ CompleteState tasks s := by
  suffices key : ∀ (n : Nat) (t : List Event) (s : SchedState),
      execTrace tasks (initState tasks) t = some s → remainingSteps tasks s ≤ n →
      ∃ (ext : List Event) (s2 : SchedState),
        execTrace tasks s ext = some s2 ∧ CompleteState tasks s2 by
    obtain ⟨ext, s2, hext, hcomp⟩ := key (remainingSteps tasks (initState tasks)) []
      (initState tasks) rfl (le_refl _)
    exact ⟨ext, s2, hext, hcomp⟩
  intro n
  induction n with
  | zero =>
    intro t s hrun hm
    have hcomp : CompleteState tasks s := by
      obtain ⟨_, _, _, _, hle, _⟩ := schedInv_holds tasks t s hrun
      intro c hc
      have hmem : (program c).length - lookupD s.pc c ∈
          tasks.map (fun x => (program x).length - lookupD s.pc x) :=
        List.mem_map.mpr ⟨c, hc, rfl⟩
      have hz := List.sum_eq_zero_iff.mp (Nat.le_zero.mp hm) _ hmem
      have := hle c
      omega
    exact ⟨[], s, rfl, hcomp⟩
  | succ n ih =>
    intro t s hrun hm
    by_cases hcomp : CompleteState tasks s
    · exact ⟨[], s, rfl, hcomp⟩
    · obtain ⟨e, s1, hstep⟩ := sched_progress tasks hbase t s hrun hcomp
      have hrun1 : execTrace tasks (initState tasks) (t ++ [e]) = some s1 := by
        rw [execTrace_append, hrun]
        simp only [Option.some_bind]
        rw [execTrace_singleton]
        exact hstep
      have hdec := remainingSteps_decrease tasks hnd t s e s1 hrun hstep
      obtain ⟨ext, s2, hext, hc2⟩ := ih (t ++ [e]) s1 hrun1 (by omega)
      refine ⟨e :: ext, s2, ?_, hc2⟩
      rw [execTrace, hstep]
      exact hext

/-- C2 witness: on the concrete complete interleaving of the Base and
Pilot goroutines, Pilot's apply (at position 18) is preceded by Base's
signal to Pilot, itself preceded by Base's apply, and Pilot's gate is
signalled exactly once. -/
theorem c2_dependency_gate_witness :
    (∃ (k j : Nat), k < j ∧ j < 18 ∧
      c2WitnessTrace[k]? = some (Event.mk IstioBaseComponentName GoAction.applyStep) ∧
      c2WitnessTrace[j]? =
        some (Event.mk IstioBaseComponentName (GoAction.signal "Pilot"))) ∧
    c2WitnessTrace.countP (fun e => decide (e.a = GoAction.signal "Pilot")) = 1 := by
  have h := c2_dependency_gate ["Base", "Pilot"] c2WitnessTrace c2WitnessState
    (by decide) (by decide)
  constructor
  · obtain ⟨k, j, hk, hj, hkx, hjx⟩ := h.1 IstioBaseComponentName "Pilot" 18 (by decide)
      (by decide) (by decide)
    exact ⟨k, j, hk, hj, hkx, hjx⟩
  · exact h.2 (by decide) IstioBaseComponentName "Pilot" (by decide) (by decide)

/-! ## Theorems for C7 -/

/-- C7 counterexample: launching a gated component without its parent never
completes — no interleaving of the scheduler reaches a state where every
goroutine has finished, because nobody ever signals the gate.  Concretely,
a manifest map containing only Pilot deadlocks `applyRecursive` at
`wg.Wait()`, so ApplyAll does NOT "always complete and return the
per-component outcome map". -/
theorem c7_counterexample :
    ¬ ∃ (t : List Event) (s : SchedState),
      execTrace ["Pilot"] (initState ["Pilot"]) t = some s ∧
        CompleteState ["Pilot"] s := by
  rintro ⟨t, s, hrun, hcomp⟩
  obtain ⟨hin, hpck, hchk, hev, hle, hch⟩ := schedInv_holds ["Pilot"] t s hrun
  have hp : ("Pilot" : ComponentName) ∈ ["Pilot"] := List.mem_singleton.mpr rfl
  have hpcfull : lookupD s.pc "Pilot" = (program "Pilot").length := hcomp _ hp
  have hcb : ("Pilot" : ComponentName) ∈ baseChildren := by decide
  have hevP : eventsOf "Pilot" t = program "Pilot" := by
    rw [hev, hpcfull, List.take_length]
  have hrecv : 0 < recvCount t "Pilot" := by
    rw [recvCount_eq, hevP, program_gated _ hcb]
    decide
  have hsig : sigCount t "Pilot" = 0 := by
    rw [sigCount, List.countP_eq_zero]
    intro e' he' hp'
    have he'a : e'.a = GoAction.signal "Pilot" := of_decide_eq_true hp'
    have he'c : e'.c = "Pilot" := by
      have := hin e' he'
      simpa using this
    have hmem : GoAction.signal "Pilot" ∈ eventsOf "Pilot" t :=
      (mem_eventsOf _ _ _).mpr ⟨e', he', he'c, he'a⟩
    rw [hevP, program_gated _ hcb] at hmem
    simp at hmem
  have := hch "Pilot"
  omega

/-- C7 amended: `ApplyAll` returns early with the connection error when the
cluster connection cannot be resolved (before any component task exists);
otherwise the per-component outcome map is always produced — one entry per
manifest component, whatever the individual outcome errors are — and the
only top-level error is the final cluster-wide readiness wait, run exactly
when the Wait option is set.  The "always completes" part holds PROVIDED
the manifest map does not contain a gated component without the base
component (that case deadlocks, see the counterexample): whenever the base
component accompanies any gated component, every interleaving can be
extended to a complete run. -/
theorem c7_apply_all_result (connectErr : Option GoErr) (env : Env)
    (manifests : List (ComponentName × String)) (versionStr : String)
    (opts : InstallOptions) :
    (∀ e, connectErr = some e →
      ApplyAllModel connectErr env manifests versionStr opts = (none, some e)) ∧
    (connectErr = none →
      (ApplyAllModel connectErr env manifests versionStr opts).1 =
        some (manifests.map
          (fun p => (p.1, (applyManifest env p.1 p.2 versionStr opts).1)))) ∧
    (connectErr = none →
      (ApplyAllModel connectErr env manifests versionStr opts).2 =
        (if opts.Wait then
          env.waitResources ((manifests.map
            (fun p => (p.1, applyManifest env p.1 p.2 versionStr opts))).flatMap
              (fun r => r.2.2.1))
        else none)) ∧
    (∀ tasks : List ComponentName, tasks.Nodup →
      ((∃ c ∈ tasks, hasGate c = true) → IstioBaseComponentName ∈ tasks) →
      ∃ (t : List Event) (s : SchedState),
        execTrace tasks (initState tasks) t = some s ∧ CompleteState tasks s) := by
  refine ⟨?_, ?_, ?_, ?_⟩
  · intro e he
    rw [he]
    rfl
  · intro he
    rw [he]
    simp [ApplyAllModel, applyRecursiveModel, List.map_map, Function.comp]
  · intro he
    rw [he]
    simp [ApplyAllModel, applyRecursiveModel]
  · intro tasks hnd hbase
    exact sched_completion tasks hnd hbase

/-- C7 witness: a connection failure aborts with that error and no outcome
map; and the Base-and-Pilot task set admits a complete run. -/
theorem c7_apply_all_result_witness :
    ApplyAllModel (some "no cluster") env6a [] "1.0" (InstallOptions.mk false false false) =
      (none, some "no cluster") ∧
    (∃ (t : List Event) (s : SchedState),
      execTrace ["Base", "Pilot"] (initState ["Base", "Pilot"]) t = some s ∧
        CompleteState ["Base", "Pilot"] s) := by
  constructor
  · exact (c7_apply_all_result (some "no cluster") env6a [] "1.0"
      (InstallOptions.mk false false false)).1 "no cluster" rfl
  · exact (c7_apply_all_result none env6a [] "1.0"
      (InstallOptions.mk false false false)).2.2.2 ["Base", "Pilot"] (by decide)
      (fun _ => by decide)

/-- Unfolding step of the renderer on a skipped (empty-manifest) entry. -/
theorem renderRecursive_cons_empty (manifests : ComponentName → String)
    (k : ComponentName) (v : ComponentTreeM) (rest : TreeKids) (dir : String) (dryRun : Bool)
    (h : manifests k = "") :
    renderRecursive manifests (TreeKids.cons k v rest) dir dryRun =
      renderRecursive manifests rest dir dryRun := by
  simp [renderRecursive, h]

/-- Unfolding step of the renderer on a rendered (non-empty) entry. -/
theorem renderRecursive_cons_nonempty (manifests : ComponentName → String)
    (k : ComponentName) (kids : TreeKids) (rest : TreeKids) (dir : String) (dryRun : Bool)
    (h : ¬ manifests k = "") :
    renderRecursive manifests (TreeKids.cons k (ComponentTreeM.node kids) rest) dir dryRun =
      ((if dryRun then [] else [pathJoin dir k]) ++
          (renderRecursive manifests kids (pathJoin dir k) dryRun).1 ++
          (renderRecursive manifests rest dir dryRun).1,
       (if dryRun then [] else [(pathJoin (pathJoin dir k) k ++ ".yaml", manifests k)]) ++
          (renderRecursive manifests kids (pathJoin dir k) dryRun).2 ++
          (renderRecursive manifests rest dir dryRun).2) := by
  simp [renderRecursive, h]

/-- C3 amended: under dry-run nothing is created at all.  Otherwise a
component's manifest is written to a file named after the chain of its
ancestors in the install tree: the root goes to
`outputDir/Base/Base.yaml`, and a child with a non-empty manifest goes to
`outputDir/Base/<child>/<child>.yaml` — and only when the Base manifest is
itself non-empty, because an empty parent manifest skips the whole
subtree. -/
theorem c3_render_to_dir (manifests : ComponentName → String) (out : String) :
    RenderToDir manifests out true = ([], []) ∧
    RenderToDir manifests out false =
      (if manifests IstioBaseComponentName = "" then ([], [])
       else
         (pathJoin out IstioBaseComponentName ::
            (baseChildren.filter (fun c => manifests c ≠ "")).map
              (fun c => pathJoin (pathJoin out IstioBaseComponentName) c),
          (pathJoin (pathJoin out IstioBaseComponentName) IstioBaseComponentName ++ ".yaml",
              manifests IstioBaseComponentName) ::
            (baseChildren.filter (fun c => manifests c ≠ "")).map
              (fun c =>
                (pathJoin (pathJoin (pathJoin out IstioBaseComponentName) c) c ++ ".yaml",
                  manifests c)))) := by
  have hnil : ∀ (dir : String) (dryRun : Bool),
      renderRecursive manifests TreeKids.nil dir dryRun = ([], []) := fun _ _ => rfl
  constructor
  · rw [RenderToDir, installTree]
    by_cases hb : manifests IstioBaseComponentName = ""
    · rw [renderRecursive_cons_empty _ _ _ _ _ _ hb, hnil]
    · rw [renderRecursive_cons_nonempty _ _ _ _ _ _ hb, renderRecursive_leaf_list, hnil]
      simp
  · rw [RenderToDir, installTree]
    by_cases hb : manifests IstioBaseComponentName = ""
    · rw [renderRecursive_cons_empty _ _ _ _ _ _ hb, hnil]
      simp [hb]
    · rw [renderRecursive_cons_nonempty _ _ _ _ _ _ hb, renderRecursive_leaf_list, hnil]
      simp [hb]

end OperatorManifest
